import Mathlib

/-!
Verification of the core pipeline of the NG12 cancer-risk assessor
(`app/agents/risk_assessor.py` and `app/agents/chat_agent.py`).

Python strings are modelled as `List Char` (`Str`).  Python dictionaries for
patient records are modelled as a structure whose fields are the exact keys
the code reads; a missing key with default `""` (resp. `[]`) is modelled by
the empty string (resp. empty list), matching `patient.get(k, "")` and
`patient.get(k) or []`.  External service calls (retrieval, generation) are
modelled as explicit outcome parameters (`PyResult`): `ok` carries the value
the Python call would return, `exc` carries the text
`f"{type(e).__name__}: {str(e)}"` of the raised exception.  A Python function
that can let an exception escape to its caller is modelled with an `Option`
result, `none` meaning an uncaught exception propagates.
-/

/-- Python `str` modelled as a list of characters. -/
abbrev Str := List Char

/-- Coerce a Lean string literal to the `Str` model. -/
def chars (s : String) : Str := s.data

/-- The characters matched by Python's regex `\s` (ASCII range):
space, tab, newline, carriage return, vertical tab, form feed. -/
def isPySpace (c : Char) : Bool :=
  c = ' ' || c = '\t' || c = '\n' || c = '\r' || c = Char.ofNat 11 || c = Char.ofNat 12

/-- Python `str.strip()`: remove leading and trailing whitespace. -/
def pyStrip (s : Str) : Str :=
  ((s.dropWhile isPySpace).reverse.dropWhile isPySpace).reverse

/-- One-pass worker for `collapseWS`; the flag records whether the scan is
inside a whitespace run (which has already emitted its single space). -/
def collapseGo : Bool → Str → Str
  | _, [] => []
  | inWs, c :: rest =>
    if isPySpace c then
      if inWs then collapseGo true rest else ' ' :: collapseGo true rest
    else c :: collapseGo false rest

/-- Replace every maximal run of whitespace by a single space
(the effect of `re.sub(r"\s+", " ", s)`). -/
def collapseWS (s : Str) : Str := collapseGo false s

/-- `_norm` (identical in `risk_assessor.py` and `chat_agent.py`):
`re.sub(r"\s+", " ", (s or "").strip().lower())`. -/
def norm (s : Str) : Str :=
  collapseWS ((pyStrip s).map Char.toLower)

/-- Python's substring test `needle in hay`. -/
def substrIn (needle hay : Str) : Bool :=
  hay.tails.any (fun t => needle.isPrefixOf t)

/-- `", ".join`-style joining. -/
def joinWith (sep : Str) (xs : List Str) : Str :=
  List.intercalate sep xs

/-- `app/models.py` `Citation`: source label, page, chunk id, excerpt text. -/
structure Citation where
  source : Str
  page : Int
  chunk_id : Str
  excerpt : Str
deriving DecidableEq, Repr

/-- A patient record (the keys read by the agents; missing keys modelled as
empty string / empty list, per `patient.get(k, "")` and
`patient.get(k) or []`). -/
structure Patient where
  patient_id : Str
  age : Str
  sex : Str
  duration : Str
  symptoms : List Str
  findings : List Str
  investigations : List Str
deriving DecidableEq, Repr

/-- Outcome of a Python call that may raise: `ok` is the returned value,
`exc` carries `f"{type(e).__name__}: {str(e)}"`. -/
inductive PyResult (α : Type) where
  | ok (a : α)
  | exc (e : Str)
deriving DecidableEq, Repr

/-! ## Query Builder (`risk_assessor._stable_query`) -/

/-- `risk_assessor._stable_query`: fixed preamble, patient attributes, and the
sorted, normalized, comma-joined symptom list. -/
def stable_query (p : Patient) : Str :=
  let symptoms_sorted :=
    joinWith (chars ", ") (List.insertionSort (· ≤ ·) (p.symptoms.map norm))
  chars "NICE NG12 suspected cancer recognition and referral.\nPatient: age="
    ++ p.age ++ chars ", sex=" ++ p.sex ++ chars ", duration=" ++ p.duration
    ++ chars "\nSymptoms: " ++ symptoms_sorted
    ++ chars "\nQuestion: Based on NG12, what is the recommended next action and urgency category?"

/-! ## Citation Scorer, assess flow (`risk_assessor._score_citation`) -/

/-- `any("weight loss" in s for s in symptoms)` over normalized symptoms. -/
def hasWeightLoss (p : Patient) : Bool :=
  (p.symptoms.map norm).any (fun s => substrIn (chars "weight loss") s)

/-- `any("change in bowel" in s or "bowel habit" in s for s in symptoms)`. -/
def hasBowelChange (p : Patient) : Bool :=
  (p.symptoms.map norm).any
    (fun s => substrIn (chars "change in bowel") s || substrIn (chars "bowel habit") s)

/-- `any("abdominal pain" in s ...) or any("upper abdominal pain" in s ...)`. -/
def hasAbdominalPain (p : Patient) : Bool :=
  (p.symptoms.map norm).any (fun s => substrIn (chars "abdominal pain") s)
    || (p.symptoms.map norm).any (fun s => substrIn (chars "upper abdominal pain") s)

/-- The keyword list of the small overlap boost in `risk_assessor._score_citation`. -/
def assessKeywords : List Str :=
  [chars "weight loss", chars "change in bowel habit", chars "bowel habit",
   chars "abdominal pain", chars "upper abdominal pain", chars "ct scan"]

/-- Strong urgent language test shared by several branches:
`"suspected cancer pathway" in text or "urgent investigation" in text or
"urgent referral" in text`. -/
def strongUrgent (text : Str) : Bool :=
  substrIn (chars "suspected cancer pathway") text
    || substrIn (chars "urgent investigation") text
    || substrIn (chars "urgent referral") text

/-- `"ct scan" in text or "direct access ct" in text`. -/
def ctMention (text : Str) : Bool :=
  substrIn (chars "ct scan") text || substrIn (chars "direct access ct") text

/-- `risk_assessor._score_citation`, transcribed additively (the running
`score` accumulator is written as a sum of the successive contributions). -/
def score_citation (c : Citation) (p : Patient) : Int :=
  let text := norm c.excerpt
  let s1 : Int := if strongUrgent text then 60 else 0
  let s2 : Int :=
    if hasWeightLoss p && hasBowelChange p then
      (if strongUrgent text then 80 else 0) + (if ctMention text then -20 else 0)
    else 0
  let s3 : Int :=
    if hasWeightLoss p && hasAbdominalPain p && ctMention text then 15 else 0
  let s4 : Int :=
    assessKeywords.foldl (fun acc kw => if substrIn kw text then acc + 3 else acc) 0
  let s5 : Int := min ((text.length : Int) / 200) 5
  s1 + s2 + s3 + s4 + s5

/-- `risk_assessor._rank_citations`: Python's `sorted(citations, key=score,
reverse=True)` is a stable descending sort; it is modelled by insertion sort
with the (total, transitive) relation "score of the left is at least the
score of the right", which is stable and descending in the same way. -/
def rank_citations (citations : List Citation) (p : Patient) : List Citation :=
  List.insertionSort (fun a b => score_citation b p ≤ score_citation a p) citations

/-! ## Citation Scorer, chat flow (`chat_agent._score_citation`) -/

/-- The keyword list of the symptom-match boost in `chat_agent._score_citation`. -/
def chatKeywords : List Str :=
  [chars "weight loss", chars "change in bowel", chars "bowel habit",
   chars "abdominal pain", chars "upper abdominal pain"]

/-- `chat_agent._score_citation`, transcribed additively. -/
def chat_score_citation (c : Citation) (p : Patient) (message : Str) : Int :=
  let text := norm c.excerpt
  let msg := norm message
  let patient_text := joinWith (chars " ") (p.symptoms.map norm ++ p.findings.map norm)
  let s1 : Int :=
    (if substrIn (chars "refer using a suspected cancer pathway referral") text then 120 else 0)
    + (if substrIn (chars "suspected cancer pathway referral") text then 90 else 0)
    + (if substrIn (chars "offer urgent investigation") text then 80 else 0)
    + (if substrIn (chars "urgent referral") text then 60 else 0)
  let s2 : Int :=
    chatKeywords.foldl
      (fun acc kw =>
        if substrIn kw text && (substrIn kw patient_text || substrIn kw msg) then acc + 10
        else acc) 0
  let s3 : Int := if substrIn (chars "recommendations organised by symptom") text then -40 else 0
  let s4 : Int := min ((text.length : Int) / 250) 6
  s1 + s2 + s3 + s4

/-- `chat_agent._rank_citations` (stable descending sort, as above). -/
def chat_rank_citations (citations : List Citation) (p : Patient) (message : Str) :
    List Citation :=
  List.insertionSort
    (fun a b => chat_score_citation b p message ≤ chat_score_citation a p message) citations

/-! ## Evidence Gate (`chat_agent._citation_supported_by_patient`) -/

/-- The fixed gated-term list of `chat_agent._citation_supported_by_patient`. -/
def gated_terms : List Str :=
  [chars "splenomegaly", chars "lymphadenopathy", chars "night sweats",
   chars "fever", chars "pruritus"]

/-- The patient's combined normalized symptom+finding+investigation text:
`" ".join(_norm(x) for x in symptoms + findings + investigations)`. -/
def patientTerms (p : Patient) : Str :=
  joinWith (chars " ")
    ((p.symptoms ++ p.findings ++ p.investigations).map norm)

/-- `chat_agent._citation_supported_by_patient`: reject when some gated term
occurs in the normalized excerpt but not in the patient's combined text (the
Python loop with an early `return False` is the conjunction over all terms). -/
def citation_supported_by_patient (c : Citation) (p : Patient) : Bool :=
  gated_terms.all
    (fun term => !(substrIn term (norm c.excerpt)) || substrIn term (patientTerms p))

/-! ## Category Normalizer (`risk_assessor._map_category`) -/

/-- `risk_assessor._map_category`. -/
def map_category (cat : Str) : Str :=
  let c := norm cat
  if c = chars "urgent_referral" || c = chars "urgent referral" then
    chars "urgent_referral"
  else if c = chars "urgent_investigation" || c = chars "urgent investigation" then
    chars "urgent_investigation"
  else if c = chars "no_urgent_action" || c = chars "no urgent action" || c = chars "routine" then
    chars "no_urgent_action"
  else if c = chars "insufficient_evidence" || c = chars "insufficient evidence" || c = chars "uncertain" then
    chars "insufficient_evidence"
  else
    chars "urgent_investigation"

/-! ## JSON model

The agents call Python's `json.loads` / `json.dumps` on small JSON objects.
The JSON values exchanged are modelled by `Json` below: null, booleans,
integers, strings, arrays and objects (floating-point literals are outside
the model; the agents' schemas use only strings).  `json.dumps` is modelled
with its default separators and `ensure_ascii=True` escaping; `json.loads`
as a recursive-descent parser of the same grammar (object parsing follows
`dict` semantics: a duplicated key keeps its first position and takes its
last value).
-/

inductive Json where
  | null : Json
  | bool (b : Bool) : Json
  | num (n : Int) : Json
  | str (s : Str) : Json
  | arr (items : List Json) : Json
  | obj (members : List (Str × Json)) : Json

/-- `'0' ≤ c ≤ '9'`. -/
def isDigitCh (c : Char) : Bool := 48 ≤ c.toNat && c.toNat ≤ 57

/-- Value of a decimal digit character. -/
def digitVal (c : Char) : Nat := c.toNat - 48

/-- Fueled worker for `natLit` (fuel `m + 1` always suffices; structural
recursion keeps the definition kernel-reducible). -/
def natLitAux : Nat → Nat → Str
  | 0, _ => []
  | fuel + 1, m =>
    if m < 10 then [Nat.digitChar m]
    else natLitAux fuel (m / 10) ++ [Nat.digitChar (m % 10)]

/-- Decimal rendering of a natural number. -/
def natLit (m : Nat) : Str := natLitAux (m + 1) m

/-- Decimal rendering of an integer (`json.dumps` of an `int`). -/
def intLit (n : Int) : Str :=
  if n < 0 then '-' :: natLit n.natAbs else natLit n.natAbs

/-- Value of a digit string read left to right. -/
def digitsVal (ds : Str) : Nat :=
  ds.foldl (fun a c => 10 * a + digitVal c) 0

/-- Lowercase hex digit. -/
def hexDigitCh (d : Nat) : Char :=
  if d < 10 then Char.ofNat (48 + d) else Char.ofNat (87 + d)

/-- Four-digit lowercase hex rendering (for `\uXXXX` escapes). -/
def hex4 (n : Nat) : Str :=
  [hexDigitCh (n / 4096 % 16), hexDigitCh (n / 256 % 16),
   hexDigitCh (n / 16 % 16), hexDigitCh (n % 16)]

/-- Hex digit test. -/
def isHexCh (c : Char) : Bool :=
  isDigitCh c || (97 ≤ c.toNat && c.toNat ≤ 102) || (65 ≤ c.toNat && c.toNat ≤ 70)

/-- Hex digit value. -/
def hexVal (c : Char) : Nat :=
  if c.toNat ≤ 57 then c.toNat - 48
  else if c.toNat ≤ 70 then c.toNat - 55
  else c.toNat - 87

/-- `json.dumps` escaping of one character (`ensure_ascii=True`): quote and
backslash escaped, the usual control shortcuts, all other control or
non-ASCII characters as `\uXXXX` (surrogate pairs beyond the BMP). -/
def escChar (c : Char) : Str :=
  if c = '"' then ['\\', '"']
  else if c = '\\' then ['\\', '\\']
  else if c = '\n' then ['\\', 'n']
  else if c = '\t' then ['\\', 't']
  else if c = '\r' then ['\\', 'r']
  else if c = Char.ofNat 8 then ['\\', 'b']
  else if c = Char.ofNat 12 then ['\\', 'f']
  else if c.toNat < 32 || 126 < c.toNat then
    if c.toNat < 65536 then '\\' :: 'u' :: hex4 c.toNat
    else
      ('\\' :: 'u' :: hex4 (55296 + (c.toNat - 65536) / 1024))
        ++ ('\\' :: 'u' :: hex4 (56320 + (c.toNat - 65536) % 1024))
  else [c]

/-- `json.dumps` escaping of a string body. -/
def escStr (s : Str) : Str :=
  s.foldr (fun c acc => escChar c ++ acc) []

mutual
/-- `json.dumps` with its default separators `", "` and `": "`. -/
def dumpVal : Json → Str
  | .null => chars "null"
  | .bool true => chars "true"
  | .bool false => chars "false"
  | .num n => intLit n
  | .str s => '"' :: (escStr s ++ ['"'])
  | .arr items => '[' :: dumpItems items
  | .obj members => '{' :: dumpMembers members

/-- Items of a dumped array, including the closing bracket. -/
def dumpItems : List Json → Str
  | [] => [']']
  | [v] => dumpVal v ++ [']']
  | v :: rest => dumpVal v ++ ',' :: ' ' :: dumpItems rest

/-- Members of a dumped object, including the closing brace. -/
def dumpMembers : List (Str × Json) → Str
  | [] => ['}']
  | [(k, v)] => '"' :: (escStr k ++ '"' :: ':' :: ' ' :: (dumpVal v ++ ['}']))
  | (k, v) :: rest =>
    '"' :: (escStr k ++ '"' :: ':' :: ' ' :: (dumpVal v ++ ',' :: ' ' :: dumpMembers rest))
end

/-- The whitespace characters of the JSON grammar (space, tab, newline,
carriage return). -/
def jsonWsCh (c : Char) : Bool :=
  c = ' ' || c = '\t' || c = '\n' || c = '\r'

/-- The whitespace skipped between JSON tokens. -/
def skipWs : Str → Str :=
  List.dropWhile jsonWsCh

/-- Single-character escapes accepted after a backslash. -/
def unescCh (c : Char) : Option Char :=
  if c = '"' then some '"'
  else if c = '\\' then some '\\'
  else if c = '/' then some '/'
  else if c = 'b' then some (Char.ofNat 8)
  else if c = 'f' then some (Char.ofNat 12)
  else if c = 'n' then some '\n'
  else if c = 'r' then some '\r'
  else if c = 't' then some '\t'
  else none

/-- Parse a JSON string body (input positioned after the opening quote);
returns the decoded content and the remainder after the closing quote.
Control characters are rejected, as in the strict `json.loads`.  (`\uXXXX`
escapes are decoded singly; surrogate-pair recombination is outside the
model.) -/
def parseStrBody : Str → Option (Str × Str)
  | [] => none
  | c :: rest =>
    if c = '"' then some ([], rest)
    else if c = '\\' then
      match rest with
      | [] => none
      | e :: rest2 =>
        if e = 'u' then
          match rest2 with
          | h1 :: h2 :: h3 :: h4 :: rest3 =>
            if isHexCh h1 && isHexCh h2 && isHexCh h3 && isHexCh h4 then
              match parseStrBody rest3 with
              | some (s, r) =>
                some (Char.ofNat
                  (((hexVal h1 * 16 + hexVal h2) * 16 + hexVal h3) * 16 + hexVal h4) :: s, r)
              | none => none
            else none
          | _ => none
        else
          match unescCh e with
          | some c2 =>
            match parseStrBody rest2 with
            | some (s, r) => some (c2 :: s, r)
            | none => none
          | none => none
    else if c.toNat < 32 then none
    else
      match parseStrBody rest with
      | some (s, r) => some (c :: s, r)
      | none => none

/-- Parse a natural-number literal (leading zeros rejected, as in JSON). -/
def parseNatTok (s : Str) : Option (Nat × Str) :=
  let ds := s.takeWhile isDigitCh
  if ds = [] then none
  else if ds.head? = some '0' && 1 < ds.length then none
  else some (digitsVal ds, s.dropWhile isDigitCh)

/-- Parse an integer literal. -/
def parseIntTok : Str → Option (Int × Str)
  | [] => none
  | c :: rest =>
    if c = '-' then (parseNatTok rest).map (fun p => (-(p.1 : Int), p.2))
    else (parseNatTok (c :: rest)).map (fun p => ((p.1 : Int), p.2))

/-- Match a fixed keyword. -/
def parseLit (w : Str) (v : Json) (s : Str) : Option (Json × Str) :=
  if w.isPrefixOf s then some (v, s.drop w.length) else none

/-- Build a Python `dict` from parsed members: a duplicated key keeps its
first position and takes its last value. -/
def insertUpdate (k : Str) (v : Json) : List (Str × Json) → List (Str × Json)
  | [] => [(k, v)]
  | (k', v') :: rest =>
    if k' = k then (k', v) :: rest else (k', v') :: insertUpdate k v rest

/-- Fold parsed members into a `dict`. -/
def buildDict (ps : List (Str × Json)) : List (Str × Json) :=
  ps.foldl (fun d kv => insertUpdate kv.1 kv.2 d) []

mutual
/-- Parse one JSON value (fueled recursive descent; the fuel only bounds
the nesting depth and `json_loads` supplies more than any input can use). -/
def pVal : Nat → Str → Option (Json × Str)
  | 0, _ => none
  | Nat.succ fuel, s0 =>
    match skipWs s0 with
    | [] => none
    | c :: rest =>
      if c = '{' then
        if (skipWs rest).head? = some '}' then some (.obj [], (skipWs rest).tail)
        else
          match pMembers fuel (skipWs rest) with
          | some (ps, r2) => some (.obj (buildDict ps), r2)
          | none => none
      else if c = '[' then
        if (skipWs rest).head? = some ']' then some (.arr [], (skipWs rest).tail)
        else
          match pItems fuel (skipWs rest) with
          | some (vs, r2) => some (.arr vs, r2)
          | none => none
      else if c = '"' then
        match parseStrBody rest with
        | some (st, r) => some (.str st, r)
        | none => none
      else if c = 't' then parseLit (chars "true") (.bool true) (c :: rest)
      else if c = 'f' then parseLit (chars "false") (.bool false) (c :: rest)
      else if c = 'n' then parseLit (chars "null") .null (c :: rest)
      else
        match parseIntTok (c :: rest) with
        | some (n, r) => some (.num n, r)
        | none => none

/-- Parse the items of a non-empty array, consuming the closing bracket. -/
def pItems : Nat → Str → Option (List Json × Str)
  | 0, _ => none
  | Nat.succ fuel, s =>
    match pVal fuel s with
    | none => none
    | some (v, r) =>
      match skipWs r with
      | [] => none
      | c2 :: r2 =>
        if c2 = ',' then
          match pItems fuel r2 with
          | some (vs, r3) => some (v :: vs, r3)
          | none => none
        else if c2 = ']' then some ([v], r2)
        else none

/-- Parse the members of a non-empty object, consuming the closing brace. -/
def pMembers : Nat → Str → Option (List (Str × Json) × Str)
  | 0, _ => none
  | Nat.succ fuel, s =>
    match s with
    | [] => none
    | c0 :: rest =>
      if c0 = '"' then
        match parseStrBody rest with
        | none => none
        | some (k, r) =>
          match skipWs r with
          | [] => none
          | c1 :: r2 =>
            if c1 = ':' then
              match pVal fuel r2 with
              | none => none
              | some (v, r3) =>
                match skipWs r3 with
                | [] => none
                | c3 :: r4 =>
                  if c3 = ',' then
                    match pMembers fuel (skipWs r4) with
                    | some (ps, r5) => some ((k, v) :: ps, r5)
                    | none => none
                  else if c3 = '}' then some ([(k, v)], r4)
                  else none
            else none
      else none
end

/-- `json.loads` on the model grammar: parse one value, allow surrounding
whitespace, require the whole input to be consumed. -/
def json_loads (s : Str) : Option Json :=
  match pVal (2 * s.length + 2) s with
  | some (v, rest) => if skipWs rest = [] then some v else none
  | none => none

/-- The span matched by `re.search(r"\{.*\}", t, re.DOTALL)`: from the first
opening brace to the last closing brace, when the latter comes after the
former. -/
def braceSpan (t : Str) : Option Str :=
  let fromLb := t.dropWhile (fun c => !(c = '{'))
  let upToRb := (fromLb.reverse.dropWhile (fun c => !(c = '}'))).reverse
  if fromLb = [] || upToRb = [] then none else some upToRb

/-- `_extract_json` (identical in `risk_assessor.py` and `chat_agent.py`):
strip, try a whole-string parse, then the greedy first-to-last brace span,
and fall back to the empty mapping. -/
def extract_json (text : Str) : Json :=
  let t := pyStrip text
  match json_loads t with
  | some v => v
  | none =>
    match braceSpan t with
    | some m =>
      match json_loads m with
      | some v => v
      | none => .obj []
    | none => .obj []

/-! ## Python helpers on parsed JSON -/

/-- `dict.get` on a parsed object (keys are unique after `buildDict`). -/
def lookupKey (k : Str) : List (Str × Json) → Option Json
  | [] => none
  | (k', v) :: rest => if k' = k then some v else lookupKey k rest

/-- Python truthiness of a parsed JSON value. -/
def pyTruthy : Json → Bool
  | .null => false
  | .bool b => b
  | .num n => decide (n ≠ 0)
  | .str s => decide (s ≠ [])
  | .arr items => !items.isEmpty
  | .obj members => !members.isEmpty

/-- `x or ""` on an optional lookup result: a missing key or a falsy value
becomes the empty string. -/
def pyOrEmpty : Option Json → Json
  | none => .str []
  | some v => if pyTruthy v then v else .str []

/-- Single-quote character (used by the Python `repr` of strings). -/
def sqChar : Char := Char.ofNat 39

mutual
/-- Python `repr` of a parsed JSON value (containers render their elements
with `repr`; the quote-switching and escaping of `repr` on exotic strings is
simplified to plain single quotes — the verified claims only apply `str` to
scalar values). -/
def pyRepr : Json → Str
  | .null => chars "None"
  | .bool true => chars "True"
  | .bool false => chars "False"
  | .num n => intLit n
  | .str s => sqChar :: (s ++ [sqChar])
  | .arr items => '[' :: pyReprItems items
  | .obj members => '{' :: pyReprMembers members

/-- Elements of a `repr`-rendered list, with the closing bracket. -/
def pyReprItems : List Json → Str
  | [] => [']']
  | [v] => pyRepr v ++ [']']
  | v :: rest => pyRepr v ++ ',' :: ' ' :: pyReprItems rest

/-- Members of a `repr`-rendered dict, with the closing brace. -/
def pyReprMembers : List (Str × Json) → Str
  | [] => ['}']
  | [(k, v)] => (sqChar :: (k ++ [sqChar])) ++ ':' :: ' ' :: (pyRepr v ++ ['}'])
  | (k, v) :: rest =>
    (sqChar :: (k ++ [sqChar])) ++ ':' :: ' ' :: (pyRepr v ++ ',' :: ' ' :: pyReprMembers rest)
end

/-- Python `str()` of a parsed JSON value: strings render without quotes,
everything else as its `repr`. -/
def pyStr : Json → Str
  | .str s => s
  | v => pyRepr v

/-! ## Orchestrator, assess flow (`risk_assessor.assess_patient`) -/

/-- `app/models.py` `AssessResponse`. -/
structure AssessResponse where
  patient_id : Str
  category : Str
  rationale : Str
  recommended_action : Str
  citations : List Citation
deriving DecidableEq, Repr

/-- `risk_assessor.assess_patient`.  The two external calls are passed as
outcomes: `retrieval` for the `NG12Retriever` construction-and-retrieve
block, `generation` for the Vertex init / `generate_content` / `resp.text`
block (whose `ok` payload is the raw model text).  `none` models the one
uncaught exception path: `obj.get(...)` on a non-dict extraction result
raises `AttributeError` outside any `try`. -/
def assess_patient (p : Patient) (retrieval : PyResult (List Citation))
    (generation : PyResult Str) : Option AssessResponse :=
  match retrieval with
  | .exc e =>
    some ⟨p.patient_id, chars "insufficient_evidence",
      chars "Retrieval failed: " ++ e,
      chars "Retry retrieval or review NG12 guidance manually.", []⟩
  | .ok citations =>
    if citations = [] then
      some ⟨p.patient_id, chars "insufficient_evidence",
        chars "No relevant NG12 guidance could be retrieved for the given symptoms.",
        chars "Review NG12 guidance manually and consider clinical review.", []⟩
    else
      match (rank_citations citations p).head? with
      | none => none
      | some best =>
        match generation with
        | .exc e =>
          let excerpt_norm := norm best.excerpt
          if substrIn (chars "suspected cancer pathway") excerpt_norm
              || substrIn (chars "urgent referral") excerpt_norm then
            some ⟨p.patient_id, chars "urgent_referral",
              chars "NG12 excerpt indicates a suspected cancer pathway referral.",
              chars "Refer using a suspected cancer pathway referral.", [best]⟩
          else if substrIn (chars "urgent investigation") excerpt_norm then
            some ⟨p.patient_id, chars "urgent_investigation",
              chars "NG12 excerpt indicates urgent investigation.",
              chars "Offer urgent investigation.", [best]⟩
          else
            some ⟨p.patient_id, chars "insufficient_evidence",
              chars "Model failed: " ++ e ++ chars ". Returning best available citation.",
              chars "Follow NG12 guidance as per the cited excerpt.", [best]⟩
        | .ok text =>
          match extract_json text with
          | .obj kvs =>
            let category := map_category (pyStr ((lookupKey (chars "category") kvs).getD (.str [])))
            let rationale := pyStrip (pyStr (pyOrEmpty (lookupKey (chars "rationale") kvs)))
            let action := pyStrip (pyStr (pyOrEmpty (lookupKey (chars "recommended_action") kvs)))
            let rationale :=
              if rationale = [] then
                chars "Recommendation is grounded in the retrieved NG12 excerpt."
              else rationale
            let ca :=
              if action = [] then
                let excerpt_norm := norm best.excerpt
                if substrIn (chars "suspected cancer pathway") excerpt_norm
                    || substrIn (chars "urgent referral") excerpt_norm then
                  (chars "urgent_referral", chars "Refer using a suspected cancer pathway referral.")
                else if substrIn (chars "urgent investigation") excerpt_norm then
                  (chars "urgent_investigation", chars "Offer urgent investigation.")
                else (category, chars "Follow NG12 guidance as per the cited excerpt.")
              else (category, action)
            some ⟨p.patient_id, ca.1, rationale, ca.2, [best]⟩
          | _ => none

/-! ## Orchestrator, chat flow (`chat_agent.answer_question`) -/

/-- The fixed refusal returned when no gated citation survives. -/
def refusalNoEvidence : Str :=
  chars "I couldn’t retrieve a relevant NG12 excerpt for that question."

/-- The fixed sentence substituted for an empty extracted answer. -/
def refusalNoAnswer : Str :=
  chars "I can’t find that in the provided NG12 excerpts."

/-- `chat_agent.answer_question`.  `top_citations` is the configured
`NG12_CHAT_TOP_CITATIONS` (default 3).  Retrieval or generation exceptions
propagate to the caller (`none`), as does the `AttributeError` of
`obj.get` on a non-dict extraction result. -/
def answer_question (p : Patient) (message : Str) (top_citations : Nat)
    (retrieval : PyResult (List Citation)) (generation : PyResult Str) :
    Option (Str × List Citation) :=
  match retrieval with
  | .exc _ => none
  | .ok raw =>
    let ranked := chat_rank_citations raw p message
    let filtered := ranked.filter (fun c => citation_supported_by_patient c p)
    let citations := filtered.take (max 1 top_citations)
    if citations = [] then some (refusalNoEvidence, [])
    else
      match generation with
      | .exc _ => none
      | .ok text =>
        match extract_json text with
        | .obj kvs =>
          let answer := pyStrip (pyStr (pyOrEmpty (lookupKey (chars "answer") kvs)))
          let answer := if answer = [] then refusalNoAnswer else answer
          some (answer, citations)
        | _ => none


/-- Printable ASCII character: the string alphabet over which the
serializer/parser round trip is stated. -/
def okChar (c : Char) : Bool := 32 ≤ c.toNat && c.toNat ≤ 126

mutual
/-- Well-formed JSON value for the round-trip statement: strings over the
printable-ASCII alphabet and, in objects, pairwise-distinct keys (a Python
mapping cannot have duplicate keys). -/
def jsonWF : Json → Bool
  | .null => true
  | .bool _ => true
  | .num _ => true
  | .str s => s.all okChar
  | .arr items => jsonWFItems items
  | .obj members => jsonWFMembers members

/-- Well-formedness of array items. -/
def jsonWFItems : List Json → Bool
  | [] => true
  | v :: rest => jsonWF v && jsonWFItems rest

/-- Well-formedness of object members, with key distinctness. -/
def jsonWFMembers : List (Str × Json) → Bool
  | [] => true
  | (k, v) :: rest =>
    k.all okChar && jsonWF v && rest.all (fun kv => decide (kv.1 ≠ k))
      && jsonWFMembers rest
end

/-- The continuations a dumped value can be followed by inside a larger
dumped document: nothing, or a separator/closer. -/
def restOkP (rest : Str) : Prop :=
  rest = [] ∨ (∃ t, rest = ',' :: t) ∨ (∃ t, rest = '}' :: t)
    ∨ (∃ t, rest = ']' :: t)

/-! ## Spec-side definitions for claim C6 -/

/-- Canonical form expressing the claim's "space/underscore-insensitive
spelling" (modelled from the spec's wording, for comparison with the source
`_map_category`): lowercase, then treat underscores like whitespace and
collapse the separator runs. -/
def sepCanon (s : Str) : Str :=
  norm (s.map (fun c => if c = '_' then ' ' else c))

/-- `s` is an arbitrary-case, space/underscore-insensitive spelling of
`canon` (spec-side definition). -/
def specSpelling (canon s : Str) : Bool :=
  decide (sepCanon s = sepCanon canon)

/-- The exact normalized spellings `_map_category` recognizes: the four
canonical values, their all-space variants, and the synonyms
"routine" and "uncertain". -/
def recognizedSpellings : List Str :=
  [chars "urgent_referral", chars "urgent referral",
   chars "urgent_investigation", chars "urgent investigation",
   chars "no_urgent_action", chars "no urgent action", chars "routine",
   chars "insufficient_evidence", chars "insufficient evidence", chars "uncertain"]


/-! ## Theorems -/

/-! ## Helper lemmas -/

/-- Stability of `orderedInsert` for a descending key sort: inserting `a`
leaves the filter at `a`'s own key with `a` in front (everything passed over
has a strictly larger key). -/
theorem filter_orderedInsert_key {α : Type} (k : α → Int) (a : α) (l : List α) :
    (List.orderedInsert (fun x y => k y ≤ k x) a l).filter (fun x => decide (k x = k a))
      = a :: l.filter (fun x => decide (k x = k a)) := by
  induction l with
  | nil => simp [List.orderedInsert]
  | cons b t ih =>
    by_cases h : k b ≤ k a
    · simp only [List.orderedInsert, if_pos h]
      simp [List.filter]
    · simp only [List.orderedInsert, if_neg h]
      have hb : (decide (k b = k a)) = false := by
        simp only [decide_eq_false_iff_not]
        intro he
        exact h (le_of_eq he)
      simp only [List.filter, hb]
      rw [ih]

/-- Inserting an element with a different key does not change the filter at
key `s`. -/
theorem filter_orderedInsert_ne {α : Type} (k : α → Int) (a : α) (l : List α)
    (s : Int) (h : ¬ k a = s) :
    (List.orderedInsert (fun x y => k y ≤ k x) a l).filter (fun x => decide (k x = s))
      = l.filter (fun x => decide (k x = s)) := by
  induction l with
  | nil => simp [List.orderedInsert, h]
  | cons b t ih =>
    by_cases hb : k b ≤ k a
    · simp only [List.orderedInsert, if_pos hb]
      simp [List.filter, h]
    · simp only [List.orderedInsert, if_neg hb]
      simp only [List.filter]
      rw [ih]

/-- Stability of the descending-key insertion sort: the candidates at any
fixed key value keep their original relative order. -/
theorem filter_insertionSort_key {α : Type} (k : α → Int) (l : List α) (s : Int) :
    ((List.insertionSort (fun x y => k y ≤ k x) l).filter (fun x => decide (k x = s)))
      = l.filter (fun x => decide (k x = s)) := by
  induction l with
  | nil => rfl
  | cons a t ih =>
    simp only [List.insertionSort]
    by_cases h : k a = s
    · subst h
      rw [filter_orderedInsert_key k a, ih]
      simp [List.filter]
    · rw [filter_orderedInsert_ne k a _ _ h, ih]
      simp [List.filter, h]

/-- C1: the Evidence Gate rejects a candidate exactly when some fixed gated
term occurs in the normalized excerpt but not in the patient's normalized
combined symptom+finding+investigation text; one violating term suffices
(rank and score play no role), and with no violating term the gate accepts. -/
theorem C1_evidence_gate (c : Citation) (p : Patient) :
    (citation_supported_by_patient c p = false ↔
      ∃ t ∈ gated_terms, substrIn t (norm c.excerpt) = true ∧ substrIn t (patientTerms p) = false)
    ∧ (citation_supported_by_patient c p = true ↔
      ∀ t ∈ gated_terms, substrIn t (norm c.excerpt) = true → substrIn t (patientTerms p) = true) := by
  unfold citation_supported_by_patient
  constructor
  · simp only [List.all_eq_false, Bool.or_eq_true, Bool.not_eq_true', not_or,
      Bool.not_eq_true, Bool.not_eq_false]
  · simp only [List.all_eq_true, Bool.or_eq_true, Bool.not_eq_true']
    constructor
    · intro h t ht hin
      rcases h t ht with h1 | h1
      · rw [hin] at h1
        cases h1
      · exact h1
    · intro h t ht
      by_cases h1 : substrIn t (norm c.excerpt) = true
      · exact Or.inr (h t ht h1)
      · exact Or.inl (by revert h1; rw [Bool.not_eq_true]; exact id)

/-- C7: both citation rankings sort by score descending and are stable:
the output is a permutation of the input, is sorted by descending score, and
the candidates at any fixed score value keep the order the Evidence Store
gave them. -/
theorem C7_ranking_stable (cits : List Citation) (p : Patient) (m : Str) (s : Int) :
    List.Sorted (fun a b => score_citation b p ≤ score_citation a p) (rank_citations cits p)
    ∧ (rank_citations cits p).Perm cits
    ∧ (rank_citations cits p).filter (fun c => decide (score_citation c p = s))
        = cits.filter (fun c => decide (score_citation c p = s))
    ∧ List.Sorted (fun a b => chat_score_citation b p m ≤ chat_score_citation a p m)
        (chat_rank_citations cits p m)
    ∧ (chat_rank_citations cits p m).Perm cits
    ∧ (chat_rank_citations cits p m).filter (fun c => decide (chat_score_citation c p m = s))
        = cits.filter (fun c => decide (chat_score_citation c p m = s)) := by
  haveI h1 : IsTotal Citation (fun a b => score_citation b p ≤ score_citation a p) :=
    ⟨fun a b => Int.le_total _ _⟩
  haveI h2 : IsTrans Citation (fun a b => score_citation b p ≤ score_citation a p) :=
    ⟨fun _ _ _ hab hbc => le_trans hbc hab⟩
  haveI h3 : IsTotal Citation (fun a b => chat_score_citation b p m ≤ chat_score_citation a p m) :=
    ⟨fun a b => Int.le_total _ _⟩
  haveI h4 : IsTrans Citation (fun a b => chat_score_citation b p m ≤ chat_score_citation a p m) :=
    ⟨fun _ _ _ hab hbc => le_trans hbc hab⟩
  refine ⟨List.sorted_insertionSort _ _, List.perm_insertionSort _ _,
    filter_insertionSort_key (fun c => score_citation c p) cits s,
    List.sorted_insertionSort _ _, List.perm_insertionSort _ _,
    filter_insertionSort_key (fun c => chat_score_citation c p m) cits s⟩

/-- C4: with an empty gated-evidence set each flow returns its fixed
terminal result: assess on an empty retrieval returns the fixed
`insufficient_evidence` response with no citations; chat, when no candidate
passes the Evidence Gate, returns the fixed refusal sentence with an empty
citation list, and its result does not depend on the generation outcome
(the generation service is never consulted). -/
theorem C4_empty_evidence (p : Patient) (gen : PyResult Str) (m : Str) (tc : Nat)
    (raw : List Citation) (gen2 : PyResult Str)
    (hgate : ∀ c ∈ raw, citation_supported_by_patient c p = false) :
    assess_patient p (.ok []) gen = some ⟨p.patient_id, chars "insufficient_evidence",
        chars "No relevant NG12 guidance could be retrieved for the given symptoms.",
        chars "Review NG12 guidance manually and consider clinical review.", []⟩
    ∧ answer_question p m tc (.ok raw) gen = some (refusalNoEvidence, [])
    ∧ answer_question p m tc (.ok raw) gen = answer_question p m tc (.ok raw) gen2 := by
  have hfil : (chat_rank_citations raw p m).filter
      (fun c => citation_supported_by_patient c p) = [] := by
    rw [List.filter_eq_nil_iff]
    intro c hc
    have hcr : c ∈ raw := by
      have := List.mem_insertionSort
        (fun a b => chat_score_citation b p m ≤ chat_score_citation a p m) (l := raw) (x := c)
      exact this.mp hc
    rw [hgate c hcr]
    exact Bool.false_ne_true
  have hchat : answer_question p m tc (.ok raw) gen = some (refusalNoEvidence, []) := by
    simp only [answer_question, hfil, List.take_nil, if_pos rfl, if_true]
  have hchat2 : answer_question p m tc (.ok raw) gen2 = some (refusalNoEvidence, []) := by
    simp only [answer_question, hfil, List.take_nil, if_pos rfl, if_true]
  exact ⟨rfl, hchat, by rw [hchat, hchat2]⟩

/-- Witness for C4 at a concrete patient and one concrete candidate that
asserts a gated term ("fever") absent from the patient record. -/
theorem C4_empty_evidence_witness :
    (∀ c ∈ [Citation.mk (chars "NG12 PDF") 7 (chars "c3")
        (chars "Consider urgent referral for fever.")],
      citation_supported_by_patient c
        ⟨chars "P1", chars "60", chars "m", chars "3w",
         [chars "weight loss"], [], []⟩ = false)
    ∧ answer_question
        ⟨chars "P1", chars "60", chars "m", chars "3w", [chars "weight loss"], [], []⟩
        (chars "what next?") 3
        (.ok [Citation.mk (chars "NG12 PDF") 7 (chars "c3")
          (chars "Consider urgent referral for fever.")])
        (.exc (chars "E")) = some (refusalNoEvidence, []) := by
  refine ⟨by decide, ?_⟩
  exact (C4_empty_evidence
    ⟨chars "P1", chars "60", chars "m", chars "3w", [chars "weight loss"], [], []⟩
    (.exc (chars "E")) (chars "what next?") 3
    [Citation.mk (chars "NG12 PDF") 7 (chars "c3")
      (chars "Consider urgent referral for fever.")]
    (.exc (chars "E")) (by decide)).2.1

/-- C3: when the generation call raises, assess returns normally with the
deterministic excerpt-phrase fallback on the best-ranked excerpt: a
referral phrase gives `urgent_referral`, otherwise an urgent-investigation
phrase gives `urgent_investigation`, otherwise `insufficient_evidence` with
a rationale noting the generation failure — and in every case the best
excerpt is attached as the single citation. -/
theorem C3_generation_fallback (p : Patient) (cits : List Citation) (e : Str)
    (best : Citation) (rest : List Citation)
    (hne : cits ≠ [])
    (hrank : rank_citations cits p = best :: rest) :
    (substrIn (chars "suspected cancer pathway") (norm best.excerpt) = true
        ∨ substrIn (chars "urgent referral") (norm best.excerpt) = true →
      assess_patient p (.ok cits) (.exc e) = some ⟨p.patient_id, chars "urgent_referral",
        chars "NG12 excerpt indicates a suspected cancer pathway referral.",
        chars "Refer using a suspected cancer pathway referral.", [best]⟩)
    ∧ (substrIn (chars "suspected cancer pathway") (norm best.excerpt) = false →
       substrIn (chars "urgent referral") (norm best.excerpt) = false →
       substrIn (chars "urgent investigation") (norm best.excerpt) = true →
      assess_patient p (.ok cits) (.exc e) = some ⟨p.patient_id, chars "urgent_investigation",
        chars "NG12 excerpt indicates urgent investigation.",
        chars "Offer urgent investigation.", [best]⟩)
    ∧ (substrIn (chars "suspected cancer pathway") (norm best.excerpt) = false →
       substrIn (chars "urgent referral") (norm best.excerpt) = false →
       substrIn (chars "urgent investigation") (norm best.excerpt) = false →
      assess_patient p (.ok cits) (.exc e) = some ⟨p.patient_id, chars "insufficient_evidence",
        chars "Model failed: " ++ e ++ chars ". Returning best available citation.",
        chars "Follow NG12 guidance as per the cited excerpt.", [best]⟩) := by
  refine ⟨?_, ?_, ?_⟩
  · intro h
    rcases h with h | h <;>
      simp [assess_patient, if_neg hne, hrank, h]
  · intro h1 h2 h3
    simp [assess_patient, if_neg hne, hrank, h1, h2, h3]
  · intro h1 h2 h3
    simp [assess_patient, if_neg hne, hrank, h1, h2, h3]

/-- Witness for C3: a single gated excerpt containing an
urgent-investigation phrase, generation raising — the result is the
`urgent_investigation` fallback citing that excerpt (the scenario of the
spec). -/
theorem C3_generation_fallback_witness :
    assess_patient
      ⟨chars "P1", chars "60", chars "m", chars "3w", [chars "weight loss"], [], []⟩
      (.ok [Citation.mk (chars "NG12 PDF") 6 (chars "c6")
        (chars "Offer urgent investigation with a CA125 test.")])
      (.exc (chars "RuntimeError: boom"))
    = some ⟨chars "P1", chars "urgent_investigation",
        chars "NG12 excerpt indicates urgent investigation.",
        chars "Offer urgent investigation.",
        [Citation.mk (chars "NG12 PDF") 6 (chars "c6")
          (chars "Offer urgent investigation with a CA125 test.")]⟩ :=
  (C3_generation_fallback
    ⟨chars "P1", chars "60", chars "m", chars "3w", [chars "weight loss"], [], []⟩
    [Citation.mk (chars "NG12 PDF") 6 (chars "c6")
      (chars "Offer urgent investigation with a CA125 test.")]
    (chars "RuntimeError: boom")
    (Citation.mk (chars "NG12 PDF") 6 (chars "c6")
      (chars "Offer urgent investigation with a CA125 test."))
    [] (by decide) (by decide)).2.1 (by decide) (by decide) (by decide)

/-- Counterexample to C2 as stated: a concrete assess run returns a citation
that asserts a gated term ("fever") absent from the patient's record, so the
returned citation is NOT an element of (let alone the first of) the
gate-filtered ranked list — that list is empty.  The assess flow applies no
evidence gate. -/
theorem C2_counterexample :
    (assess_patient
      ⟨chars "P1", chars "60", chars "m", chars "3w", [chars "weight loss"], [], []⟩
      (.ok [Citation.mk (chars "NG12 PDF") 7 (chars "c3")
        (chars "Consider urgent referral for fever.")])
      (.exc (chars "RuntimeError: boom"))).map (fun r => r.citations)
    = some [Citation.mk (chars "NG12 PDF") 7 (chars "c3")
        (chars "Consider urgent referral for fever.")]
    ∧ citation_supported_by_patient
        (Citation.mk (chars "NG12 PDF") 7 (chars "c3")
          (chars "Consider urgent referral for fever."))
        ⟨chars "P1", chars "60", chars "m", chars "3w", [chars "weight loss"], [], []⟩
      = false := by
  constructor
  · decide
  · decide

/-- C2 (amended): every result of the assess flow carries at most one
citation, and when one is present it is the first element of the
score-ranked candidate list — with no evidence gating applied in this flow. -/
theorem C2_single_citation (p : Patient) (ret : PyResult (List Citation))
    (gen : PyResult Str) (r : AssessResponse)
    (h : assess_patient p ret gen = some r) :
    r.citations.length ≤ 1
    ∧ (r.citations ≠ [] → ∃ cits best rest, ret = .ok cits
        ∧ rank_citations cits p = best :: rest ∧ r.citations = [best]) := by
  cases ret with
  | exc e =>
    simp only [assess_patient] at h
    cases h
    exact ⟨by simp, fun hne => absurd rfl hne⟩
  | ok cits =>
    by_cases hc : cits = []
    · subst hc
      simp only [assess_patient, if_pos rfl] at h
      cases h
      exact ⟨by simp, fun hne => absurd rfl hne⟩
    · simp only [assess_patient, if_neg hc] at h
      cases hrk : rank_citations cits p with
      | nil =>
        rw [hrk] at h
        simp only [List.head?_nil] at h
        cases h
      | cons best rest =>
        rw [hrk] at h
        simp only [List.head?_cons] at h
        cases gen with
        | exc e =>
          split_ifs at h <;> cases h <;>
            exact ⟨by simp, fun _ => ⟨cits, best, rest, rfl, hrk, rfl⟩⟩
        | ok text =>
          dsimp only at h
          cases hext : extract_json text <;> rw [hext] at h <;> cases h
          exact ⟨by simp, fun _ => ⟨cits, best, rest, rfl, hrk, rfl⟩⟩

/-- Witness for C2 (amended) at a concrete run with one candidate and a
generation failure. -/
theorem C2_single_citation_witness :
    (AssessResponse.mk (chars "P1") (chars "urgent_referral")
        (chars "NG12 excerpt indicates a suspected cancer pathway referral.")
        (chars "Refer using a suspected cancer pathway referral.")
        [Citation.mk (chars "NG12 PDF") 7 (chars "c3")
          (chars "Consider urgent referral for fever.")]).citations.length ≤ 1
    ∧ ((AssessResponse.mk (chars "P1") (chars "urgent_referral")
        (chars "NG12 excerpt indicates a suspected cancer pathway referral.")
        (chars "Refer using a suspected cancer pathway referral.")
        [Citation.mk (chars "NG12 PDF") 7 (chars "c3")
          (chars "Consider urgent referral for fever.")]).citations ≠ [] →
      ∃ cits best rest,
        (PyResult.ok [Citation.mk (chars "NG12 PDF") 7 (chars "c3")
          (chars "Consider urgent referral for fever.")]) = PyResult.ok cits
        ∧ rank_citations cits
            ⟨chars "P1", chars "60", chars "m", chars "3w", [chars "weight loss"], [], []⟩
            = best :: rest
        ∧ (AssessResponse.mk (chars "P1") (chars "urgent_referral")
            (chars "NG12 excerpt indicates a suspected cancer pathway referral.")
            (chars "Refer using a suspected cancer pathway referral.")
            [Citation.mk (chars "NG12 PDF") 7 (chars "c3")
              (chars "Consider urgent referral for fever.")]).citations = [best]) :=
  C2_single_citation
    ⟨chars "P1", chars "60", chars "m", chars "3w", [chars "weight loss"], [], []⟩
    (.ok [Citation.mk (chars "NG12 PDF") 7 (chars "c3")
      (chars "Consider urgent referral for fever.")])
    (.exc (chars "RuntimeError: boom")) _ (by decide)

/-- Counterexample to C10 as stated: a concrete successful generation whose
extracted mapping has an empty recommended_action AND an absent rationale,
over a best excerpt with no referral/investigation phrase — the normalized
model category ("no_urgent_action") is kept even though rationale and action
are not both non-empty, refuting "only when rationale and action are both
non-empty is the normalized model category kept". -/
theorem C10_counterexample :
    (assess_patient
      ⟨chars "P1", chars "60", chars "m", chars "3w", [chars "weight loss"], [], []⟩
      (.ok [Citation.mk (chars "NG12 PDF") 3 (chars "c0") (chars "See NG12 guidance.")])
      (.ok (chars "\x7b\"category\": \"no_urgent_action\"\x7d"))).map (fun r => r.category)
    = some (chars "no_urgent_action")
    ∧ extract_json (chars "\x7b\"category\": \"no_urgent_action\"\x7d")
      = Json.obj [(chars "category", Json.str (chars "no_urgent_action"))] := by
  constructor
  · decide
  · rfl

/-- C10 (amended): on the successful-generation path, when the extracted
recommended_action is empty the phrase fallback fills the action from the
best excerpt and overwrites the category accordingly (referral phrase →
`urgent_referral`, else urgent-investigation phrase →
`urgent_investigation`); when the action is empty and no phrase matches, and
whenever the action is non-empty, the normalized model category is kept —
the rationale's emptiness has no effect on the category. -/
theorem C10_action_fallback (p : Patient) (cits : List Citation) (text : Str)
    (kvs : List (Str × Json)) (best : Citation) (rest : List Citation)
    (hc : cits ≠ []) (hrank : rank_citations cits p = best :: rest)
    (hext : extract_json text = Json.obj kvs) :
    (pyStrip (pyStr (pyOrEmpty (lookupKey (chars "recommended_action") kvs))) = [] →
      (substrIn (chars "suspected cancer pathway") (norm best.excerpt) = true
        ∨ substrIn (chars "urgent referral") (norm best.excerpt) = true) →
      (assess_patient p (.ok cits) (.ok text)).map (fun r => r.category)
        = some (chars "urgent_referral"))
    ∧ (pyStrip (pyStr (pyOrEmpty (lookupKey (chars "recommended_action") kvs))) = [] →
      substrIn (chars "suspected cancer pathway") (norm best.excerpt) = false →
      substrIn (chars "urgent referral") (norm best.excerpt) = false →
      substrIn (chars "urgent investigation") (norm best.excerpt) = true →
      (assess_patient p (.ok cits) (.ok text)).map (fun r => r.category)
        = some (chars "urgent_investigation"))
    ∧ (pyStrip (pyStr (pyOrEmpty (lookupKey (chars "recommended_action") kvs))) = [] →
      substrIn (chars "suspected cancer pathway") (norm best.excerpt) = false →
      substrIn (chars "urgent referral") (norm best.excerpt) = false →
      substrIn (chars "urgent investigation") (norm best.excerpt) = false →
      (assess_patient p (.ok cits) (.ok text)).map (fun r => r.category)
        = some (map_category (pyStr ((lookupKey (chars "category") kvs).getD (Json.str [])))))
    ∧ (pyStrip (pyStr (pyOrEmpty (lookupKey (chars "recommended_action") kvs))) ≠ [] →
      (assess_patient p (.ok cits) (.ok text)).map (fun r => r.category)
        = some (map_category (pyStr ((lookupKey (chars "category") kvs).getD (Json.str []))))) := by
  have hbase : assess_patient p (.ok cits) (.ok text) =
      (match extract_json text with
       | Json.obj kvs =>
         some ⟨p.patient_id,
           (if pyStrip (pyStr (pyOrEmpty (lookupKey (chars "recommended_action") kvs))) = [] then
              if (substrIn (chars "suspected cancer pathway") (norm best.excerpt)
                  || substrIn (chars "urgent referral") (norm best.excerpt)) = true then
                (chars "urgent_referral", chars "Refer using a suspected cancer pathway referral.")
              else if substrIn (chars "urgent investigation") (norm best.excerpt) = true then
                (chars "urgent_investigation", chars "Offer urgent investigation.")
              else
                (map_category (pyStr ((lookupKey (chars "category") kvs).getD (Json.str []))),
                  chars "Follow NG12 guidance as per the cited excerpt.")
            else
              (map_category (pyStr ((lookupKey (chars "category") kvs).getD (Json.str []))),
                pyStrip (pyStr (pyOrEmpty (lookupKey (chars "recommended_action") kvs))))).1,
           (if pyStrip (pyStr (pyOrEmpty (lookupKey (chars "rationale") kvs))) = [] then
              chars "Recommendation is grounded in the retrieved NG12 excerpt."
            else pyStrip (pyStr (pyOrEmpty (lookupKey (chars "rationale") kvs)))),
           (if pyStrip (pyStr (pyOrEmpty (lookupKey (chars "recommended_action") kvs))) = [] then
              if (substrIn (chars "suspected cancer pathway") (norm best.excerpt)
                  || substrIn (chars "urgent referral") (norm best.excerpt)) = true then
                (chars "urgent_referral", chars "Refer using a suspected cancer pathway referral.")
              else if substrIn (chars "urgent investigation") (norm best.excerpt) = true then
                (chars "urgent_investigation", chars "Offer urgent investigation.")
              else
                (map_category (pyStr ((lookupKey (chars "category") kvs).getD (Json.str []))),
                  chars "Follow NG12 guidance as per the cited excerpt.")
            else
              (map_category (pyStr ((lookupKey (chars "category") kvs).getD (Json.str []))),
                pyStrip (pyStr (pyOrEmpty (lookupKey (chars "recommended_action") kvs))))).2,
           [best]⟩
       | _ => none) := by
    simp only [assess_patient, if_neg hc, hrank, List.head?_cons]
  refine ⟨?_, ?_, ?_, ?_⟩
  · intro ha hph
    rw [hbase, hext]
    have : (substrIn (chars "suspected cancer pathway") (norm best.excerpt)
        || substrIn (chars "urgent referral") (norm best.excerpt)) = true := by
      rcases hph with h | h <;> simp [h]
    simp [ha, this]
  · intro ha h1 h2 h3
    rw [hbase, hext]
    simp [ha, h1, h2, h3]
  · intro ha h1 h2 h3
    rw [hbase, hext]
    simp [ha, h1, h2, h3]
  · intro ha
    rw [hbase, hext]
    simp [ha]

/-- Witness for C10 (amended): generation succeeds with an empty
recommended_action and a model category "no_urgent_action", over a best
excerpt carrying the pathway phrase — the final category is overwritten to
"urgent_referral". -/
theorem C10_action_fallback_witness :
    (assess_patient
      ⟨chars "P1", chars "60", chars "m", chars "3w", [chars "weight loss"], [], []⟩
      (.ok [Citation.mk (chars "NG12 PDF") 5 (chars "c1")
        (chars "Refer adults using a suspected cancer pathway referral.")])
      (.ok (chars "\x7b\"category\": \"no_urgent_action\", \"rationale\": \"r\", \"recommended_action\": \"\"\x7d"))).map
        (fun r => r.category)
      = some (chars "urgent_referral") :=
  (C10_action_fallback
    ⟨chars "P1", chars "60", chars "m", chars "3w", [chars "weight loss"], [], []⟩
    [Citation.mk (chars "NG12 PDF") 5 (chars "c1")
      (chars "Refer adults using a suspected cancer pathway referral.")]
    (chars "\x7b\"category\": \"no_urgent_action\", \"rationale\": \"r\", \"recommended_action\": \"\"\x7d")
    [(chars "category", Json.str (chars "no_urgent_action")),
     (chars "rationale", Json.str (chars "r")),
     (chars "recommended_action", Json.str (chars ""))]
    (Citation.mk (chars "NG12 PDF") 5 (chars "c1")
      (chars "Refer adults using a suspected cancer pathway referral."))
    [] (by decide) (by decide) rfl).1 rfl (Or.inl (by decide))

/-- Counterexample to C6 as stated: "no urgent_action" is a space/underscore-
insensitive spelling of the canonical "no_urgent_action" (mixed separators),
yet `_map_category` sends it to the default "urgent_investigation" instead of
"no_urgent_action". -/
theorem C6_counterexample :
    specSpelling (chars "no_urgent_action") (chars "no urgent_action") = true
    ∧ map_category (chars "no urgent_action") = chars "urgent_investigation"
    ∧ ¬ map_category (chars "no urgent_action") = chars "no_urgent_action" := by
  refine ⟨by decide, by decide, by decide⟩

/-- C6 (amended): `_map_category` always outputs one of the four canonical
values; it maps any spelling whose case/whitespace normalization equals a
canonical value, or that value with its underscores replaced by single
spaces, to that canonical value (so all-space or all-underscore variants of
any casing are recognized); the synonyms "routine" and "uncertain" map to
"no_urgent_action" and "insufficient_evidence"; and every input whose
normalization is none of the recognized spellings — including mixed
space/underscore spellings — falls to the default "urgent_investigation". -/
theorem C6_category_normalizer (s : Str) (c : Str) :
    (map_category s = chars "urgent_referral" ∨ map_category s = chars "urgent_investigation"
      ∨ map_category s = chars "no_urgent_action" ∨ map_category s = chars "insufficient_evidence")
    ∧ (c ∈ [chars "urgent_referral", chars "urgent_investigation",
            chars "no_urgent_action", chars "insufficient_evidence"] →
        (norm s = c ∨ norm s = c.map (fun ch => if ch = '_' then ' ' else ch)) →
        map_category s = c)
    ∧ (norm s = chars "routine" → map_category s = chars "no_urgent_action")
    ∧ (norm s = chars "uncertain" → map_category s = chars "insufficient_evidence")
    ∧ (norm s ∉ recognizedSpellings → map_category s = chars "urgent_investigation") := by
  refine ⟨?_, ?_, ?_, ?_, ?_⟩
  · unfold map_category
    dsimp only
    split_ifs <;> simp
  · intro hc hs
    simp only [List.mem_cons, List.not_mem_nil, or_false] at hc
    rcases hc with rfl | rfl | rfl | rfl <;>
      rcases hs with h | h <;>
        (unfold map_category
         dsimp only
         rw [h]
         decide)
  · intro h
    unfold map_category
    dsimp only
    rw [h]
    decide
  · intro h
    unfold map_category
    dsimp only
    rw [h]
    decide
  · intro hnr
    have hne : ∀ t ∈ recognizedSpellings, ¬ norm s = t := by
      intro t ht he
      rw [← he] at ht
      exact hnr ht
    unfold map_category
    dsimp only
    split_ifs with h1 h2 h3 h4
    · exfalso
      have hd : norm s = chars "urgent_referral" ∨ norm s = chars "urgent referral" := by
        simpa using h1
      rcases hd with he | he
      · exact hne _ (by decide) he
      · exact hne _ (by decide) he
    · exfalso
      have hd : norm s = chars "urgent_investigation"
          ∨ norm s = chars "urgent investigation" := by
        simpa using h2
      rcases hd with he | he
      · exact hne _ (by decide) he
      · exact hne _ (by decide) he
    · exfalso
      have hd : (norm s = chars "no_urgent_action" ∨ norm s = chars "no urgent action")
          ∨ norm s = chars "routine" := by
        simpa [or_assoc] using h3
      rcases hd with (he | he) | he
      · exact hne _ (by decide) he
      · exact hne _ (by decide) he
      · exact hne _ (by decide) he
    · exfalso
      have hd : (norm s = chars "insufficient_evidence"
            ∨ norm s = chars "insufficient evidence")
          ∨ norm s = chars "uncertain" := by
        simpa [or_assoc] using h4
      rcases hd with (he | he) | he
      · exact hne _ (by decide) he
      · exact hne _ (by decide) he
      · exact hne _ (by decide) he
    · rfl

/-- Witness for C6 (amended): the spec's own examples, including the
default on the unrecognized input "banana". -/
theorem C6_category_normalizer_witness :
    map_category (chars "Urgent Referral") = chars "urgent_referral"
    ∧ map_category (chars "urgent_referral") = chars "urgent_referral"
    ∧ map_category (chars "banana") = chars "urgent_investigation" := by
  refine ⟨?_, ?_, ?_⟩
  · exact (C6_category_normalizer (chars "Urgent Referral") (chars "urgent_referral")).2.1
      (by decide) (Or.inr (by decide))
  · exact (C6_category_normalizer (chars "urgent_referral") (chars "urgent_referral")).2.1
      (by decide) (Or.inl (by decide))
  · exact (C6_category_normalizer (chars "banana") (chars "urgent_referral")).2.2.2.2
      (by decide)

/-- C8: the assess-flow Query Builder is invariant under reordering,
re-casing and whitespace changes of the symptom list: two patients agreeing
on age, sex and duration whose normalized symptom multisets coincide produce
the identical query string.  (The builder is a total function on the patient
model; absent fields are the empty segments.) -/
theorem C8_stable_query (p₁ p₂ : Patient)
    (hage : p₁.age = p₂.age) (hsex : p₁.sex = p₂.sex) (hdur : p₁.duration = p₂.duration)
    (hsym : (p₁.symptoms.map norm).Perm (p₂.symptoms.map norm)) :
    stable_query p₁ = stable_query p₂ := by
  have hsort : List.insertionSort (· ≤ ·) (p₁.symptoms.map norm)
      = List.insertionSort (· ≤ ·) (p₂.symptoms.map norm) := by
    haveI ht : IsTotal Str (· ≤ ·) := ⟨fun a b => le_total a b⟩
    haveI htr : IsTrans Str (· ≤ ·) := ⟨fun _ _ _ => le_trans⟩
    haveI has : IsAntisymm Str (· ≤ ·) := ⟨fun _ _ => le_antisymm⟩
    exact List.eq_of_perm_of_sorted
      (((List.perm_insertionSort _ _).trans hsym).trans (List.perm_insertionSort _ _).symm)
      (List.sorted_insertionSort _ _) (List.sorted_insertionSort _ _)
  simp only [stable_query, hage, hsex, hdur, hsort]

/-- Witness for C8: two concrete records differing in symptom order, casing
and internal whitespace. -/
theorem C8_stable_query_witness :
    stable_query ⟨chars "P1", chars "60", chars "m", chars "3w",
        [chars "Weight  Loss", chars "abdominal pain"], [], []⟩
      = stable_query ⟨chars "P1", chars "60", chars "m", chars "3w",
        [chars "ABDOMINAL PAIN", chars "weight loss"], [], []⟩ :=
  C8_stable_query _ _ rfl rfl rfl (by decide)

/-- Bounds for the keyword-overlap fold of the assess scorer. -/
theorem foldl_add3_bounds (text : Str) (kws : List Str) (acc : Int) :
    acc ≤ kws.foldl (fun a kw => if substrIn kw text then a + 3 else a) acc
    ∧ kws.foldl (fun a kw => if substrIn kw text then a + 3 else a) acc
        ≤ acc + 3 * kws.length := by
  induction kws generalizing acc with
  | nil => simp
  | cons k ks ih =>
    simp only [List.foldl_cons, List.length_cons]
    by_cases h : substrIn k text = true
    · rw [if_pos h]
      obtain ⟨l, r⟩ := ih (acc + 3)
      constructor
      · omega
      · push_cast
        omega
    · rw [if_neg (by simpa using h)]
      obtain ⟨l, r⟩ := ih acc
      constructor
      · omega
      · push_cast
        omega

/-- The length-based specificity bonus lies between 0 and 5. -/
theorem lenBonus_bounds (text : Str) :
    (0 : Int) ≤ min ((text.length : Int) / 200) 5
    ∧ min ((text.length : Int) / 200) 5 ≤ 5 := by
  constructor
  · exact le_min (Int.ediv_nonneg (Int.natCast_nonneg _) (by norm_num)) (by norm_num)
  · exact min_le_right _ _

/-- A strongly-urgent excerpt scores at least 120 for a patient with the
weight-loss + bowel-change combination. -/
theorem score_citation_lower (c : Citation) (p : Patient)
    (hu : strongUrgent (norm c.excerpt) = true)
    (hwl : hasWeightLoss p = true) (hbc : hasBowelChange p = true) :
    120 ≤ score_citation c p := by
  unfold score_citation
  dsimp only
  rw [hu, hwl, hbc]
  obtain ⟨l4, _⟩ := foldl_add3_bounds (norm c.excerpt) assessKeywords 0
  obtain ⟨l5, _⟩ := lenBonus_bounds (norm c.excerpt)
  simp only [Bool.and_self, if_true]
  split_ifs <;> linarith

/-- An excerpt with no strong urgent phrase but a CT mention scores at most
18 for a patient with the weight-loss + bowel-change combination. -/
theorem score_citation_upper (c : Citation) (p : Patient)
    (hu : strongUrgent (norm c.excerpt) = false)
    (hwl : hasWeightLoss p = true) (hbc : hasBowelChange p = true)
    (hct : ctMention (norm c.excerpt) = true) :
    score_citation c p ≤ 18 := by
  unfold score_citation
  dsimp only
  rw [hu, hwl, hbc, hct]
  obtain ⟨_, r4⟩ := foldl_add3_bounds (norm c.excerpt) assessKeywords 0
  obtain ⟨_, r5⟩ := lenBonus_bounds (norm c.excerpt)
  have hlen : (assessKeywords.length : Int) = 6 := by decide
  simp only [Bool.and_self, if_true]
  split_ifs <;> first | contradiction | linarith

/-- C9: for a patient whose symptoms include weight loss and a
change-in-bowel-habit, an excerpt carrying the suspected-cancer-pathway
phrase strictly outscores any excerpt that mentions CT (directly or as
direct-access CT) but carries none of the strong urgent phrases — whatever
keywords the CT excerpt matches. -/
theorem C9_rule_beats_model (p : Patient) (A B : Citation)
    (hwl : hasWeightLoss p = true) (hbc : hasBowelChange p = true)
    (hA : substrIn (chars "suspected cancer pathway") (norm A.excerpt) = true)
    (hBct : ctMention (norm B.excerpt) = true)
    (hBnu : strongUrgent (norm B.excerpt) = false) :
    score_citation B p < score_citation A p := by
  have hAu : strongUrgent (norm A.excerpt) = true := by
    unfold strongUrgent
    rw [hA]
    rfl
  have h1 := score_citation_lower A p hAu hwl hbc
  have h2 := score_citation_upper B p hBnu hwl hbc hBct
  linarith

/-- Witness for C9 at a concrete patient and a concrete excerpt pair (the
CT excerpt matching more raw keywords than the pathway one). -/
theorem C9_rule_beats_model_witness :
    score_citation
        (Citation.mk (chars "NG12 PDF") 6 (chars "c2")
          (chars "Offer a direct access ct scan for weight loss with abdominal pain and change in bowel habit."))
        ⟨chars "P1", chars "60", chars "m", chars "3w",
          [chars "weight loss", chars "change in bowel habit"], [], []⟩
      < score_citation
        (Citation.mk (chars "NG12 PDF") 5 (chars "c1")
          (chars "Refer adults using a suspected cancer pathway referral."))
        ⟨chars "P1", chars "60", chars "m", chars "3w",
          [chars "weight loss", chars "change in bowel habit"], [], []⟩ :=
  C9_rule_beats_model
    ⟨chars "P1", chars "60", chars "m", chars "3w",
      [chars "weight loss", chars "change in bowel habit"], [], []⟩
    (Citation.mk (chars "NG12 PDF") 5 (chars "c1")
      (chars "Refer adults using a suspected cancer pathway referral."))
    (Citation.mk (chars "NG12 PDF") 6 (chars "c2")
      (chars "Offer a direct access ct scan for weight loss with abdominal pain and change in bowel habit."))
    (by decide) (by decide) (by decide) (by decide) (by decide)

/-! ## Round-trip lemmas: tokens -/

/-- `skipWs` is transparent on a non-whitespace head. -/
theorem skipWs_cons_of_neg (c : Char) (t : Str) (h : jsonWsCh c = false) :
    skipWs (c :: t) = c :: t := by
  simp [skipWs, List.dropWhile_cons, h]

/-- `skipWs` eats a leading space. -/
theorem skipWs_cons_space (t : Str) : skipWs (' ' :: t) = skipWs t := by
  simp [skipWs, List.dropWhile_cons, jsonWsCh]

/-- Value of a decimal digit character produced by `Nat.digitChar`. -/
theorem digitVal_digitChar (d : Nat) (h : d < 10) :
    digitVal (Nat.digitChar d) = d := by
  interval_cases d <;> rfl

/-- `Nat.digitChar` of a digit is a digit character. -/
theorem isDigitCh_digitChar (d : Nat) (h : d < 10) :
    isDigitCh (Nat.digitChar d) = true := by
  interval_cases d <;> rfl

/-- The fuel of `natLitAux` is irrelevant once it exceeds the argument. -/
theorem natLitAux_irrel : ∀ f₁ f₂ m, m < f₁ → m < f₂ →
    natLitAux f₁ m = natLitAux f₂ m := by
  intro f₁
  induction f₁ with
  | zero => intro f₂ m h; omega
  | succ f₁ ih =>
    intro f₂ m h₁ h₂
    cases f₂ with
    | zero => omega
    | succ f₂ =>
      by_cases hm : m < 10
      · simp [natLitAux, hm]
      · have hd : m / 10 < m := Nat.div_lt_self (by omega) (by omega)
        simp only [natLitAux, if_neg hm]
        rw [ih f₂ (m / 10) (by omega) (by omega)]

/-- The recursion equation of `natLit`. -/
theorem natLit_eq (m : Nat) : natLit m =
    if m < 10 then [Nat.digitChar m]
    else natLit (m / 10) ++ [Nat.digitChar (m % 10)] := by
  have h : natLit m = if m < 10 then [Nat.digitChar m]
      else natLitAux m (m / 10) ++ [Nat.digitChar (m % 10)] := rfl
  rw [h]
  by_cases hm : m < 10
  · rw [if_pos hm, if_pos hm]
  · have hd : m / 10 < m := Nat.div_lt_self (by omega) (by omega)
    rw [if_neg hm, if_neg hm]
    congr 1
    exact natLitAux_irrel m (m / 10 + 1) (m / 10) hd (by omega)

/-- Every character of `natLit` is a digit. -/
theorem natLit_digits (m : Nat) : ∀ c ∈ natLit m, isDigitCh c = true := by
  induction m using Nat.strong_induction_on with
  | _ m ih =>
    rw [natLit_eq]
    by_cases hm : m < 10
    · simp only [if_pos hm, List.mem_singleton]
      rintro c rfl
      exact isDigitCh_digitChar m hm
    · simp only [if_neg hm, List.mem_append, List.mem_singleton]
      rintro c (hc | rfl)
      · exact ih (m / 10) (Nat.div_lt_self (by omega) (by omega)) c hc
      · exact isDigitCh_digitChar _ (Nat.mod_lt _ (by omega))

/-- `natLit` is never empty. -/
theorem natLit_ne_nil (m : Nat) : natLit m ≠ [] := by
  rw [natLit_eq]
  by_cases hm : m < 10 <;> simp [hm]

/-- A positive number never renders with a leading zero. -/
theorem natLit_head_pos (m : Nat) (h : 1 ≤ m) : (natLit m).head? ≠ some '0' := by
  induction m using Nat.strong_induction_on with
  | _ m ih =>
    rw [natLit_eq]
    by_cases hm : m < 10
    · simp only [if_pos hm, List.head?_cons]
      intro hc
      have hdc : Nat.digitChar m = '0' := by injection hc
      interval_cases m <;> exact absurd hdc (by decide)
    · simp only [if_neg hm]
      obtain ⟨c, t, hct⟩ : ∃ c t, natLit (m / 10) = c :: t := by
        cases hnl : natLit (m / 10) with
        | nil => exact absurd hnl (natLit_ne_nil _)
        | cons c t => exact ⟨c, t, rfl⟩
      rw [hct]
      simp only [List.cons_append, List.head?_cons]
      have := ih (m / 10) (Nat.div_lt_self (by omega) (by omega)) (by omega)
      rw [hct] at this
      simpa using this

/-- Reading back a dumped natural number. -/
theorem digitsVal_natLit (m : Nat) : digitsVal (natLit m) = m := by
  induction m using Nat.strong_induction_on with
  | _ m ih =>
    rw [natLit_eq]
    by_cases hm : m < 10
    · simp only [if_pos hm]
      show 10 * 0 + digitVal (Nat.digitChar m) = m
      rw [digitVal_digitChar m hm]
      omega
    · simp only [if_neg hm]
      show List.foldl _ 0 _ = m
      rw [List.foldl_append]
      have h1 : List.foldl (fun a c => 10 * a + digitVal c) 0 (natLit (m / 10)) = m / 10 :=
        ih (m / 10) (Nat.div_lt_self (by omega) (by omega))
      rw [h1]
      show 10 * (m / 10) + digitVal (Nat.digitChar (m % 10)) = m
      rw [digitVal_digitChar _ (Nat.mod_lt _ (by omega))]
      omega

/-- Splitting `takeWhile`/`dropWhile` over a satisfied block followed by a
failing head. -/
theorem takeWhile_dropWhile_append (p : Char → Bool) (xs rest : Str)
    (hxs : ∀ c ∈ xs, p c = true)
    (hr : ∀ c t, rest = c :: t → p c = false) :
    (xs ++ rest).takeWhile p = xs ∧ (xs ++ rest).dropWhile p = rest := by
  induction xs with
  | nil =>
    simp only [List.nil_append]
    cases rest with
    | nil => simp
    | cons c t =>
      have := hr c t rfl
      simp [List.takeWhile_cons, List.dropWhile_cons, this]
  | cons x xs ih =>
    have hx := hxs x (List.mem_cons_self x xs)
    obtain ⟨h1, h2⟩ := ih (fun c hc => hxs c (List.mem_cons_of_mem x hc))
    simp [List.takeWhile_cons, List.dropWhile_cons, hx, h1, h2]

/-- The continuation after a dumped number never starts with a digit. -/
theorem restOkP_not_digit (rest : Str) (h : restOkP rest) :
    ∀ c t, rest = c :: t → isDigitCh c = false := by
  rintro c t rfl
  rcases h with h | ⟨t', ht⟩ | ⟨t', ht⟩ | ⟨t', ht⟩
  · cases h
  all_goals (injection ht with h1 _; subst h1; decide)

/-- Reading back a dumped natural number token. -/
theorem parseNatTok_natLit (m : Nat) (rest : Str) (h : restOkP rest) :
    parseNatTok (natLit m ++ rest) = some (m, rest) := by
  obtain ⟨ht, hd⟩ := takeWhile_dropWhile_append isDigitCh (natLit m) rest
    (natLit_digits m) (restOkP_not_digit rest h)
  unfold parseNatTok
  simp only [ht, hd]
  rw [if_neg (by simpa using natLit_ne_nil m)]
  have hlead : (decide ((natLit m).head? = some '0') && decide (1 < (natLit m).length)) = false := by
    by_cases hm : m = 0
    · subst hm
      have : natLit 0 = ['0'] := by rw [natLit_eq]; rfl
      rw [this]
      decide
    · have := natLit_head_pos m (by omega)
      simp [this]
  rw [if_neg (by simp only [hlead]; exact Bool.false_ne_true)]
  rw [digitsVal_natLit]

/-- Reading back a dumped integer token. -/
theorem parseIntTok_intLit (n : Int) (rest : Str) (h : restOkP rest) :
    parseIntTok (intLit n ++ rest) = some (n, rest) := by
  by_cases hn : n < 0
  · have : intLit n = '-' :: natLit n.natAbs := by simp [intLit, hn]
    rw [this]
    simp only [List.cons_append]
    simp only [parseIntTok]
    rw [if_pos trivial, parseNatTok_natLit _ _ h]
    simp only [Option.map_some']
    congr 1
    have : (n.natAbs : Int) = -n := by
      rw [Int.natCast_natAbs]
      exact abs_of_neg hn
    rw [this]
    simp
  · have hln : intLit n = natLit n.natAbs := by simp [intLit, hn]
    obtain ⟨c, t, hct⟩ : ∃ c t, natLit n.natAbs = c :: t := by
      cases hnl : natLit n.natAbs with
      | nil => exact absurd hnl (natLit_ne_nil _)
      | cons c t => exact ⟨c, t, rfl⟩
    have hcd : isDigitCh c = true := by
      apply natLit_digits
      rw [hct]
      exact List.mem_cons_self c t
    have hcm : c ≠ '-' := by
      intro he
      subst he
      exact absurd hcd (by decide)
    rw [hln, hct]
    simp only [List.cons_append]
    rw [show parseIntTok (c :: (t ++ rest))
        = if c = '-' then (parseNatTok (t ++ rest)).map (fun p => (-(p.1 : Int), p.2))
          else (parseNatTok (c :: (t ++ rest))).map (fun p => ((p.1 : Int), p.2)) from rfl]
    rw [if_neg hcm]
    rw [show c :: (t ++ rest) = (c :: t) ++ rest from rfl, ← hct,
      parseNatTok_natLit _ _ h]
    simp only [Option.map_some']
    congr 1
    rw [Int.natCast_natAbs, abs_of_nonneg (by omega)]

/-! ## Round-trip lemmas: strings -/

/-- A printable character other than quote and backslash is passed through
by the dump escaping. -/
theorem escChar_plain (c : Char) (h : okChar c = true) (h1 : c ≠ '"') (h2 : c ≠ '\\') :
    escChar c = [c] := by
  have hb : 32 ≤ c.toNat ∧ c.toNat ≤ 126 := by
    simpa [okChar] using h
  unfold escChar
  rw [if_neg h1, if_neg h2]
  rw [if_neg (by rintro rfl; revert hb; decide)]
  rw [if_neg (by rintro rfl; revert hb; decide)]
  rw [if_neg (by rintro rfl; revert hb; decide)]
  rw [if_neg (by rintro rfl; revert hb; decide)]
  rw [if_neg (by rintro rfl; revert hb; decide)]
  rw [if_neg (by
    simp only [Bool.or_eq_true, decide_eq_true_eq, not_or, not_lt]
    omega)]

/-- Unfolding `parseStrBody` on an escaped quote. -/
theorem parseStrBody_esc_quote (t : Str) : parseStrBody ('\\' :: '"' :: t)
    = (match parseStrBody t with
       | some (s, r) => some ('"' :: s, r)
       | none => none) := by
  rw [parseStrBody.eq_def]
  simp [unescCh]

/-- Unfolding `parseStrBody` on an escaped backslash. -/
theorem parseStrBody_esc_backslash (t : Str) : parseStrBody ('\\' :: '\\' :: t)
    = (match parseStrBody t with
       | some (s, r) => some ('\\' :: s, r)
       | none => none) := by
  rw [parseStrBody.eq_def]
  simp [unescCh]

/-- Unfolding `parseStrBody` on an unescaped printable character. -/
theorem parseStrBody_cons_plain (c : Char) (t : Str)
    (h1 : c ≠ '"') (h2 : c ≠ '\\') (h3 : ¬ c.toNat < 32) :
    parseStrBody (c :: t) = match parseStrBody t with
      | some (s, r) => some (c :: s, r)
      | none => none := by
  rw [parseStrBody.eq_def]
  simp only [h1, h2, if_false]
  rw [if_neg h3]

/-- Reading back a dumped (escaped) string body up to its closing quote. -/
theorem parseStrBody_escStr (s : Str) (rest : Str)
    (hs : ∀ c ∈ s, okChar c = true) :
    parseStrBody (escStr s ++ '"' :: rest) = some (s, rest) := by
  induction s with
  | nil =>
    show parseStrBody ('"' :: rest) = some ([], rest)
    rw [parseStrBody.eq_def]
    simp
  | cons c cs ih =>
    have hc := hs c (List.mem_cons_self c cs)
    have ihh := ih (fun d hd => hs d (List.mem_cons_of_mem c hd))
    have hesc : escStr (c :: cs) ++ '"' :: rest
        = escChar c ++ (escStr cs ++ '"' :: rest) := by
      show (escChar c ++ escStr cs) ++ '"' :: rest = _
      rw [List.append_assoc]
    rw [hesc]
    by_cases h1 : c = '"'
    · subst h1
      rw [show escChar '"' = ['\\', '"'] from rfl]
      rw [show (['\\', '"'] : Str) ++ (escStr cs ++ '"' :: rest)
          = '\\' :: '"' :: (escStr cs ++ '"' :: rest) from rfl]
      rw [show ('\\' :: '"' :: (escStr cs ++ '"' :: rest) : Str)
          = '\\' :: '"' :: (escStr cs ++ '"' :: rest) from rfl,
        parseStrBody_esc_quote, ihh]
    · by_cases h2 : c = '\\'
      · subst h2
        rw [show escChar '\\' = ['\\', '\\'] from rfl]
        rw [show (['\\', '\\'] : Str) ++ (escStr cs ++ '"' :: rest)
            = '\\' :: '\\' :: (escStr cs ++ '"' :: rest) from rfl]
        rw [parseStrBody_esc_backslash, ihh]
      · rw [escChar_plain c hc h1 h2]
        rw [show ([c] : Str) ++ (escStr cs ++ '"' :: rest)
            = c :: (escStr cs ++ '"' :: rest) from rfl]
        rw [parseStrBody_cons_plain c _ h1 h2 (by
          have hb : 32 ≤ c.toNat ∧ c.toNat ≤ 126 := by simpa [okChar] using hc
          omega)]
        rw [ihh]

/-! ## Round-trip lemmas: shapes and dictionaries -/

/-- A dumped integer starts with a digit or a minus sign. -/
theorem intLit_head (n : Int) :
    ∃ c t, intLit n = c :: t ∧ (isDigitCh c = true ∨ c = '-') := by
  by_cases hn : n < 0
  · exact ⟨'-', natLit n.natAbs, by simp [intLit, hn], Or.inr rfl⟩
  · have hln : intLit n = natLit n.natAbs := by simp [intLit, hn]
    obtain ⟨c, t, hct⟩ : ∃ c t, natLit n.natAbs = c :: t := by
      cases hnl : natLit n.natAbs with
      | nil => exact absurd hnl (natLit_ne_nil _)
      | cons c t => exact ⟨c, t, rfl⟩
    refine ⟨c, t, by rw [hln, hct], Or.inl ?_⟩
    apply natLit_digits
    rw [hct]
    exact List.mem_cons_self c t

/-- Facts about the head character of a dumped number. -/
theorem numHead_facts (c : Char) (h : isDigitCh c = true ∨ c = '-') :
    jsonWsCh c = false ∧ c ≠ '{' ∧ c ≠ '[' ∧ c ≠ '"' ∧ c ≠ 't' ∧ c ≠ 'f' ∧ c ≠ 'n'
      ∧ c ≠ ']' ∧ c ≠ '}' := by
  rcases h with h | rfl
  · have hb : 48 ≤ c.toNat ∧ c.toNat ≤ 57 := by simpa [isDigitCh] using h
    refine ⟨?_, ?_, ?_, ?_, ?_, ?_, ?_, ?_, ?_⟩
    · cases hj : jsonWsCh c
      · rfl
      · simp only [jsonWsCh, Bool.or_eq_true, decide_eq_true_eq] at hj
        rcases hj with ((rfl | rfl) | rfl) | rfl <;> exact absurd hb (by decide)
    all_goals (rintro rfl; exact absurd hb (by decide))
  · decide

/-- The head of any dumped value is not whitespace and not a closer. -/
theorem dumpVal_head (v : Json) : ∃ c t, dumpVal v = c :: t
    ∧ jsonWsCh c = false ∧ c ≠ ']' ∧ c ≠ '}' := by
  match v with
  | .num n =>
    obtain ⟨c, t, hct, hd⟩ := intLit_head n
    obtain ⟨h1, _, _, _, _, _, _, h8, h9⟩ := numHead_facts c hd
    exact ⟨c, t, hct, h1, h8, h9⟩
  | .null | .bool true | .bool false | .str _ | .arr _ | .obj _ =>
    exact ⟨_, _, rfl, by decide⟩

/-- A dumped non-empty member list starts with the key's opening quote. -/
theorem dumpMembers_head (ms : List (Str × Json)) (h : ms ≠ []) :
    ∃ t, dumpMembers ms = '"' :: t := by
  match ms with
  | [(k, v)] => exact ⟨_, rfl⟩
  | (k, v) :: m :: rest => exact ⟨_, rfl⟩

/-- `dumpItems` of a singleton. -/
theorem dumpItems_single (v : Json) : dumpItems [v] = dumpVal v ++ [']'] := rfl

/-- `dumpItems` of a longer list. -/
theorem dumpItems_cons2 (v w : Json) (ws : List Json) :
    dumpItems (v :: w :: ws) = dumpVal v ++ ',' :: ' ' :: dumpItems (w :: ws) := rfl

/-- `dumpMembers` of a singleton. -/
theorem dumpMembers_single (k : Str) (v : Json) :
    dumpMembers [(k, v)]
      = '"' :: (escStr k ++ '"' :: ':' :: ' ' :: (dumpVal v ++ ['}'])) := rfl

/-- `dumpMembers` of a longer list. -/
theorem dumpMembers_cons2 (k : Str) (v : Json) (m : Str × Json)
    (rest : List (Str × Json)) :
    dumpMembers ((k, v) :: m :: rest)
      = '"' :: (escStr k ++ '"' :: ':' :: ' ' ::
          (dumpVal v ++ ',' :: ' ' :: dumpMembers (m :: rest))) := rfl

/-- `insertUpdate` appends when the key is fresh. -/
theorem insertUpdate_append (k : Str) (v : Json) (d : List (Str × Json))
    (h : ∀ kv ∈ d, kv.1 ≠ k) :
    insertUpdate k v d = d ++ [(k, v)] := by
  induction d with
  | nil => rfl
  | cons kv d ih =>
    have hk := h kv (List.mem_cons_self kv d)
    unfold insertUpdate
    rw [if_neg hk]
    rw [ih (fun kv' h' => h kv' (List.mem_cons_of_mem kv h'))]
    rfl

/-- Folding `insertUpdate` over members with pairwise-fresh keys appends
them in order. -/
theorem buildDict_acc (ms : List (Str × Json)) :
    ∀ acc, jsonWFMembers ms = true →
      (∀ kv ∈ ms, ∀ kv' ∈ acc, kv.1 ≠ kv'.1) →
      List.foldl (fun d kv => insertUpdate kv.1 kv.2 d) acc ms = acc ++ ms := by
  induction ms with
  | nil =>
    intro acc _ _
    simp
  | cons kv ms ih =>
    intro acc hwf hdisj
    obtain ⟨k, v⟩ := kv
    have hwf' : jsonWFMembers ((k, v) :: ms)
        = (k.all okChar && jsonWF v && ms.all (fun kv => decide (kv.1 ≠ k))
            && jsonWFMembers ms) := rfl
    rw [hwf'] at hwf
    simp only [Bool.and_eq_true] at hwf
    obtain ⟨⟨⟨_, _⟩, hfresh⟩, hms⟩ := hwf
    simp only [List.foldl_cons]
    rw [insertUpdate_append k v acc
      (fun kv' h' => Ne.symm (hdisj (k, v) (List.mem_cons_self _ _) kv' h'))]
    rw [ih (acc ++ [(k, v)]) hms ?_]
    · simp
    · intro kv₁ h₁ kv₂ h₂
      rcases List.mem_append.mp h₂ with h₂ | h₂
      · exact hdisj kv₁ (List.mem_cons_of_mem _ h₁) kv₂ h₂
      · have hkv : kv₂ = (k, v) := by simpa using h₂
        subst hkv
        have := List.all_eq_true.mp hfresh kv₁ h₁
        simpa using this

/-- On well-formed members `buildDict` is the identity. -/
theorem buildDict_eq (ms : List (Str × Json)) (h : jsonWFMembers ms = true) :
    buildDict ms = ms := by
  have := buildDict_acc ms [] h (by intro kv _ kv' h'; cases h')
  simpa [buildDict] using this

/-- `pVal` ignores a leading space. -/
theorem pVal_ws (fuel : Nat) (t : Str) : pVal fuel (' ' :: t) = pVal fuel t := by
  cases fuel with
  | zero => rfl
  | succ fuel =>
    rw [pVal.eq_def, pVal.eq_def]
    dsimp only
    rw [skipWs_cons_space]

/-- `pItems` ignores a leading space. -/
theorem pItems_ws (fuel : Nat) (t : Str) : pItems fuel (' ' :: t) = pItems fuel t := by
  cases fuel with
  | zero => rfl
  | succ fuel =>
    rw [pItems.eq_def, pItems.eq_def]
    dsimp only
    rw [pVal_ws]

/-- `parseLit` accepts its own keyword and returns the remainder. -/
theorem parseLit_self (w : Str) (vv : Json) (rest : Str) :
    parseLit w vv (w ++ rest) = some (vv, rest) := by
  unfold parseLit
  rw [if_pos (by rw [List.isPrefixOf_iff_prefix]; exact List.prefix_append _ _)]
  rw [List.drop_left]

/-- The parser reads back exactly what the serializer wrote: one simultaneous
fuel induction for values, array items and object members. -/
theorem parse_dump_all : ∀ fuel : Nat,
    (∀ v rest, jsonWF v = true → restOkP rest → 2 * (dumpVal v).length + 1 ≤ fuel →
      pVal fuel (dumpVal v ++ rest) = some (v, rest))
    ∧ (∀ vs rest, vs ≠ [] → jsonWFItems vs = true → restOkP rest →
        2 * (dumpItems vs).length + 1 ≤ fuel →
      pItems fuel (dumpItems vs ++ rest) = some (vs, rest))
    ∧ (∀ ms rest, ms ≠ [] → jsonWFMembers ms = true → restOkP rest →
        2 * (dumpMembers ms).length + 1 ≤ fuel →
      pMembers fuel (dumpMembers ms ++ rest) = some (ms, rest)) := by
  intro fuel
  induction fuel with
  | zero =>
    refine ⟨fun v rest _ _ hf => by omega, fun vs rest _ _ _ hf => by omega,
      fun ms rest _ _ _ hf => by omega⟩
  | succ fuel ihAll =>
    obtain ⟨ih1, ih2, ih3⟩ := ihAll
    refine ⟨?_, ?_, ?_⟩
    · intro v rest hwf hrest hfuel
      cases v with
      | null =>
        rw [show dumpVal Json.null ++ rest = 'n' :: 'u' :: 'l' :: 'l' :: rest from rfl]
        rw [pVal.eq_def]
        dsimp only
        rw [skipWs_cons_of_neg _ _ (by decide)]
        dsimp only
        rw [show ('n' :: 'u' :: 'l' :: 'l' :: rest : Str)
            = chars "null" ++ rest from rfl, parseLit_self]
        simp
      | bool b =>
        cases b with
        | true =>
          rw [show dumpVal (Json.bool true) ++ rest = 't' :: 'r' :: 'u' :: 'e' :: rest from rfl]
          rw [pVal.eq_def]
          dsimp only
          rw [skipWs_cons_of_neg _ _ (by decide)]
          dsimp only
          rw [show ('t' :: 'r' :: 'u' :: 'e' :: rest : Str)
              = chars "true" ++ rest from rfl, parseLit_self]
          simp
        | false =>
          rw [show dumpVal (Json.bool false) ++ rest
              = 'f' :: 'a' :: 'l' :: 's' :: 'e' :: rest from rfl]
          rw [pVal.eq_def]
          dsimp only
          rw [skipWs_cons_of_neg _ _ (by decide)]
          dsimp only
          rw [show ('f' :: 'a' :: 'l' :: 's' :: 'e' :: rest : Str)
              = chars "false" ++ rest from rfl, parseLit_self]
          simp
      | num n =>
        obtain ⟨c, t, hct, hd⟩ := intLit_head n
        obtain ⟨hws, h1, h2, h3, h4, h5, h6, _, _⟩ := numHead_facts c hd
        rw [show dumpVal (Json.num n) = intLit n from rfl, hct]
        rw [show (c :: t : Str) ++ rest = c :: (t ++ rest) from rfl]
        rw [pVal.eq_def]
        dsimp only
        rw [skipWs_cons_of_neg _ _ hws]
        dsimp only
        rw [if_neg h1, if_neg h2, if_neg h3, if_neg h4, if_neg h5, if_neg h6]
        rw [show c :: (t ++ rest) = (c :: t) ++ rest from rfl, ← hct,
          parseIntTok_intLit n rest hrest]
      | str s =>
        rw [show dumpVal (Json.str s) ++ rest = '"' :: (escStr s ++ '"' :: rest) from by
          show ('"' :: (escStr s ++ ['"'])) ++ rest = _
          simp [List.append_assoc]]
        rw [pVal.eq_def]
        dsimp only
        rw [skipWs_cons_of_neg _ _ (by decide)]
        dsimp only
        rw [if_neg (by decide), if_neg (by decide), if_pos rfl]
        rw [parseStrBody_escStr s rest (List.all_eq_true.mp hwf)]
      | arr items =>
        cases items with
        | nil =>
          rw [show dumpVal (Json.arr []) ++ rest = '[' :: ']' :: rest from rfl]
          rw [pVal.eq_def]
          dsimp only
          rw [skipWs_cons_of_neg _ _ (by decide)]
          dsimp only
          rw [if_neg (by decide), if_pos rfl]
          rw [skipWs_cons_of_neg _ _ (by decide)]
          simp
        | cons v vs =>
          have hdv : dumpVal (Json.arr (v :: vs)) = '[' :: dumpItems (v :: vs) := rfl
          obtain ⟨c, t, hct, hcw, hc1, hc2⟩ := dumpVal_head v
          obtain ⟨u, hu⟩ : ∃ u, dumpItems (v :: vs) = c :: u := by
            cases vs with
            | nil => exact ⟨t ++ [']'], by rw [dumpItems_single, hct]; rfl⟩
            | cons w ws =>
              exact ⟨t ++ ',' :: ' ' :: dumpItems (w :: ws),
                by rw [dumpItems_cons2, hct]; rfl⟩
          rw [hdv, pVal.eq_def]
          dsimp only
          rw [show ('[' :: dumpItems (v :: vs)) ++ rest
              = '[' :: (dumpItems (v :: vs) ++ rest) from rfl]
          rw [skipWs_cons_of_neg _ _ (by decide)]
          dsimp only
          rw [if_neg (by decide), if_pos rfl]
          rw [hu]
          rw [show (c :: u : Str) ++ rest = c :: (u ++ rest) from rfl]
          rw [skipWs_cons_of_neg _ _ hcw]
          rw [if_neg (by simp [hc1])]
          rw [show (c :: (u ++ rest) : Str) = (c :: u) ++ rest from rfl, ← hu]
          have harith : 2 * (dumpItems (v :: vs)).length + 1 ≤ fuel := by
            have := congrArg List.length hdv
            simp only [List.length_cons] at this
            omega
          rw [ih2 (v :: vs) rest (by simp) hwf hrest harith]
      | obj members =>
        cases members with
        | nil =>
          rw [show dumpVal (Json.obj []) ++ rest = '{' :: '}' :: rest from rfl]
          rw [pVal.eq_def]
          dsimp only
          rw [skipWs_cons_of_neg _ _ (by decide)]
          dsimp only
          rw [if_pos rfl]
          rw [skipWs_cons_of_neg _ _ (by decide)]
          simp
        | cons m ms =>
          have hdv : dumpVal (Json.obj (m :: ms)) = '{' :: dumpMembers (m :: ms) := rfl
          obtain ⟨u, hu⟩ := dumpMembers_head (m :: ms) (by simp)
          rw [hdv, pVal.eq_def]
          dsimp only
          rw [show ('{' :: dumpMembers (m :: ms)) ++ rest
              = '{' :: (dumpMembers (m :: ms) ++ rest) from rfl]
          rw [skipWs_cons_of_neg _ _ (by decide)]
          dsimp only
          rw [if_pos rfl]
          rw [hu]
          rw [show ('"' :: u : Str) ++ rest = '"' :: (u ++ rest) from rfl]
          rw [skipWs_cons_of_neg _ _ (by decide)]
          rw [if_neg (by simp)]
          rw [show ('"' :: (u ++ rest) : Str) = ('"' :: u) ++ rest from rfl, ← hu]
          have harith : 2 * (dumpMembers (m :: ms)).length + 1 ≤ fuel := by
            have := congrArg List.length hdv
            simp only [List.length_cons] at this
            omega
          rw [ih3 (m :: ms) rest (by simp) hwf hrest harith]
          dsimp only
          rw [buildDict_eq (m :: ms) hwf]
    · intro vs rest hne hwf hrest hfuel
      cases vs with
      | nil => exact absurd rfl hne
      | cons v vs =>
        have hwfd : jsonWF v = true ∧ jsonWFItems vs = true := by
          have h : jsonWFItems (v :: vs) = (jsonWF v && jsonWFItems vs) := rfl
          rw [h] at hwf
          simpa [Bool.and_eq_true] using hwf
        rw [pItems.eq_def]
        dsimp only
        cases vs with
        | nil =>
          have harith : 2 * (dumpVal v).length + 1 ≤ fuel := by
            have := congrArg List.length (dumpItems_single v)
            simp only [List.length_append, List.length_cons, List.length_nil] at this
            omega
          rw [dumpItems_single]
          rw [show (dumpVal v ++ [']']) ++ rest = dumpVal v ++ (']' :: rest) from by simp]
          rw [ih1 v (']' :: rest) hwfd.1 (Or.inr (Or.inr (Or.inr ⟨rest, rfl⟩))) harith]
          dsimp only
          rw [skipWs_cons_of_neg _ _ (by decide)]
          dsimp only
          rw [if_neg (by decide), if_pos rfl]
        | cons w ws =>
          have hlen : (dumpItems (v :: w :: ws)).length
              = (dumpVal v).length + 2 + (dumpItems (w :: ws)).length := by
            have := congrArg List.length (dumpItems_cons2 v w ws)
            simp only [List.length_cons, List.length_append, List.length_nil] at this
            omega
          rw [dumpItems_cons2]
          rw [show (dumpVal v ++ ',' :: ' ' :: dumpItems (w :: ws)) ++ rest
              = dumpVal v ++ (',' :: ' ' :: (dumpItems (w :: ws) ++ rest)) from by simp]
          rw [ih1 v _ hwfd.1 (Or.inr (Or.inl ⟨_, rfl⟩)) (by omega)]
          dsimp only
          rw [skipWs_cons_of_neg _ _ (by decide)]
          dsimp only
          rw [if_pos rfl]
          rw [pItems_ws]
          rw [ih2 (w :: ws) rest (by simp) hwfd.2 hrest (by omega)]
    · intro ms rest hne hwf hrest hfuel
      cases ms with
      | nil => exact absurd rfl hne
      | cons kv ms =>
        obtain ⟨k, v⟩ := kv
        have hx : jsonWFMembers ((k, v) :: ms)
            = (k.all okChar && jsonWF v && ms.all (fun kv => decide (kv.1 ≠ k))
                && jsonWFMembers ms) := rfl
        rw [hx] at hwf
        simp only [Bool.and_eq_true] at hwf
        obtain ⟨⟨⟨hk, hv⟩, _⟩, hms⟩ := hwf
        rw [pMembers.eq_def]
        dsimp only
        cases ms with
        | nil =>
          have hlen : (dumpMembers [(k, v)]).length
              = (escStr k).length + (dumpVal v).length + 5 := by
            have := congrArg List.length (dumpMembers_single k v)
            simp only [List.length_cons, List.length_append, List.length_nil] at this
            omega
          rw [dumpMembers_single]
          rw [show ('"' :: (escStr k ++ '"' :: ':' :: ' ' :: (dumpVal v ++ ['}']))) ++ rest
              = '"' :: (escStr k ++ '"' :: ':' :: ' ' :: ((dumpVal v ++ ['}']) ++ rest))
              from by simp]
          dsimp only
          rw [if_pos rfl]
          rw [parseStrBody_escStr k _ (List.all_eq_true.mp hk)]
          dsimp only
          rw [skipWs_cons_of_neg _ _ (by decide)]
          dsimp only
          rw [if_pos rfl]
          rw [pVal_ws]
          rw [show (dumpVal v ++ ['}']) ++ rest = dumpVal v ++ ('}' :: rest) from by simp]
          rw [ih1 v _ hv (Or.inr (Or.inr (Or.inl ⟨rest, rfl⟩))) (by omega)]
          dsimp only
          rw [skipWs_cons_of_neg _ _ (by decide)]
          dsimp only
          rw [if_neg (by decide), if_pos rfl]
        | cons m ms' =>
          have hlen : (dumpMembers ((k, v) :: m :: ms')).length
              = (escStr k).length + (dumpVal v).length
                  + (dumpMembers (m :: ms')).length + 6 := by
            have := congrArg List.length (dumpMembers_cons2 k v m ms')
            simp only [List.length_cons, List.length_append, List.length_nil] at this
            omega
          rw [dumpMembers_cons2]
          rw [show ('"' :: (escStr k ++ '"' :: ':' :: ' ' ::
                (dumpVal v ++ ',' :: ' ' :: dumpMembers (m :: ms')))) ++ rest
              = '"' :: (escStr k ++ '"' :: ':' :: ' ' ::
                  ((dumpVal v ++ ',' :: ' ' :: dumpMembers (m :: ms')) ++ rest))
              from by simp]
          dsimp only
          rw [if_pos rfl]
          rw [parseStrBody_escStr k _ (List.all_eq_true.mp hk)]
          dsimp only
          rw [skipWs_cons_of_neg _ _ (by decide)]
          dsimp only
          rw [if_pos rfl]
          rw [pVal_ws]
          rw [show (dumpVal v ++ ',' :: ' ' :: dumpMembers (m :: ms')) ++ rest
              = dumpVal v ++ (',' :: ' ' :: (dumpMembers (m :: ms') ++ rest)) from by simp]
          rw [ih1 v _ hv (Or.inr (Or.inl ⟨_, rfl⟩)) (by omega)]
          dsimp only
          rw [skipWs_cons_of_neg _ _ (by decide)]
          dsimp only
          rw [if_pos rfl]
          rw [skipWs_cons_space]
          obtain ⟨u, hu⟩ := dumpMembers_head (m :: ms') (by simp)
          rw [show dumpMembers (m :: ms') ++ rest = '"' :: (u ++ rest) from by rw [hu]; rfl]
          rw [skipWs_cons_of_neg _ _ (by decide)]
          rw [show ('"' :: (u ++ rest) : Str) = ('"' :: u) ++ rest from rfl, ← hu]
          rw [ih3 (m :: ms') rest (by simp) hms hrest (by omega)]

/-- `pyStrip` fixes a string with non-whitespace first and last characters. -/
theorem pyStrip_of_ends (a b : Char) (t : Str)
    (ha : isPySpace a = false) (hb : isPySpace b = false) :
    pyStrip (a :: (t ++ [b])) = a :: (t ++ [b]) := by
  unfold pyStrip
  rw [List.dropWhile_cons]
  rw [ha]
  simp only [Bool.false_eq_true, if_false]
  rw [show (a :: (t ++ [b])).reverse = b :: (t.reverse ++ [a]) from by
    simp [List.reverse_cons, List.reverse_append]]
  rw [List.dropWhile_cons, hb]
  simp only [Bool.false_eq_true, if_false]
  rw [show (b :: (t.reverse ++ [a])).reverse = a :: (t ++ [b]) from by
    simp [List.reverse_cons, List.reverse_append]]

/-- A dumped member block always ends with the closing brace. -/
theorem dumpMembers_ends (ms : List (Str × Json)) :
    ∃ mid, dumpMembers ms = mid ++ ['}'] := by
  induction ms with
  | nil => exact ⟨[], rfl⟩
  | cons kv ms ih =>
    obtain ⟨k, v⟩ := kv
    cases ms with
    | nil =>
      refine ⟨'"' :: (escStr k ++ '"' :: ':' :: ' ' :: dumpVal v), ?_⟩
      rw [dumpMembers_single]
      simp
    | cons m rest =>
      obtain ⟨mid, hm⟩ := ih
      refine ⟨'"' :: (escStr k ++ '"' :: ':' :: ' ' :: (dumpVal v ++ ',' :: ' ' :: mid)), ?_⟩
      rw [dumpMembers_cons2, hm]
      simp

/-- A dumped object is untouched by `str.strip`. -/
theorem pyStrip_dump_obj (ms : List (Str × Json)) :
    pyStrip (dumpVal (Json.obj ms)) = dumpVal (Json.obj ms) := by
  obtain ⟨mid, hm⟩ := dumpMembers_ends ms
  rw [show dumpVal (Json.obj ms) = '{' :: dumpMembers ms from rfl, hm]
  exact pyStrip_of_ends '{' '}' mid (by decide) (by decide)

/-- `json.loads` inverts `json.dumps` on well-formed values. -/
theorem json_loads_dump (v : Json) (h : jsonWF v = true) :
    json_loads (dumpVal v) = some v := by
  unfold json_loads
  have hp := (parse_dump_all (2 * (dumpVal v).length + 2)).1 v [] h (Or.inl rfl) (by omega)
  rw [List.append_nil] at hp
  rw [hp]
  rfl

/-- C5: the Response Extractor is a total function (it returns a value on
every input, never an exception); it round-trips every well-formed JSON
mapping through `json.dumps`, recovers the first-to-last brace span out of
surrounding prose, and yields the empty mapping on garbage. -/
theorem C5_extract_json (ms : List (Str × Json)) (h : jsonWF (Json.obj ms) = true) :
    extract_json (dumpVal (Json.obj ms)) = Json.obj ms
    ∧ extract_json (chars "prose \x7b\"a\":1\x7d trailing") = Json.obj [(chars "a", Json.num 1)]
    ∧ extract_json (chars "not json") = Json.obj [] := by
  refine ⟨?_, rfl, rfl⟩
  unfold extract_json
  rw [pyStrip_dump_obj ms]
  dsimp only
  rw [json_loads_dump _ h]

/-- Witness for C5: the round trip evaluated on the concrete mapping
`\x7b"a": 1\x7d`. -/
theorem C5_extract_json_witness :
    jsonWF (Json.obj [(chars "a", Json.num 1)]) = true
    ∧ extract_json (dumpVal (Json.obj [(chars "a", Json.num 1)]))
        = Json.obj [(chars "a", Json.num 1)] :=
  ⟨by decide, (C5_extract_json [(chars "a", Json.num 1)] (by decide)).1⟩
